import Mathlib

/-!
Verification of the grid-packing and cutline-geometry core of
`pnpstitcher` (`src/pnpstitcher/generator/base.py`) against its
natural-language specification.

The embedding models the linear arithmetic of the Python code over `ℚ`
(exact rationals standing for the real-number intent of the float code):

* `pyRound` models Python's built-in `round` on one argument
  (round-half-to-even, returning an integer);
* `divmodQ` models Python's `divmod(a, b)` for `b` a linear measure:
  `(⌊a/b⌋, a - ⌊a/b⌋*b)`;
* `generateCutLineMeta` models `BaseGenerator._generate_cut_line`,
  returning the computed grid capacity, centering cut margins and the
  cutline list, or the error string raised by the Python code
  (`RuntimeError('Image too large for the page')`, the spec's
  `LayoutError`);
* `genLoop` / `generate` model the image-placement and page-break loop
  of `BaseGenerator.generate`, recording the calls made on the drawing
  surface (`_initialize_page`, `_draw_image`, `_draw_cutlines`,
  `_render_page`) as a trace of `Event`s.
-/

namespace PnpStitcher

/-- Python `round` on a rational: round half to even, to an integer. -/
def pyRound (q : ℚ) : ℤ :=
  let f := ⌊q⌋
  let frac := q - f
  if frac < 1/2 then f
  else if 1/2 < frac then f + 1
  else if f % 2 = 0 then f else f + 1

/-- Python `divmod(a, b)` on reals: floored quotient and remainder. -/
def divmodQ (a b : ℚ) : ℤ × ℚ :=
  (⌊a / b⌋, a - (⌊a / b⌋ : ℚ) * b)

/-- `CutLine = namedtuple('CutLine', ['x0', 'y0', 'x1', 'y1'])`. -/
structure CutLine where
  x0 : ℚ
  y0 : ℚ
  x1 : ℚ
  y1 : ℚ
deriving DecidableEq

/-- The constructor state of `BaseGenerator` that the core reads
(`filename` is irrelevant to layout and omitted). -/
structure GeneratorConfig where
  page_width : ℚ
  page_height : ℚ
  page_margin_x : ℚ
  page_margin_y : ℚ
  image_dpi : ℚ
  page_dpi : ℚ
deriving DecidableEq

/-- The keys of the `cutline_config` dict read by `generate`. -/
structure CutlineConfig where
  trim_offset_x : ℚ
  trim_offset_y : ℚ
  layer : String
deriving DecidableEq

/-- The page metadata fields `_generate_cut_line` stores on `self`. -/
structure PageMeta where
  card_num_x : ℤ
  card_num_y : ℤ
  cut_margin_x : ℚ
  cut_margin_y : ℚ
  cutline_set : List CutLine
deriving DecidableEq

/-- `self._card_num_x`: first component of
`divmod(round(self.page_width - self.page_margin_x * 2), image_width)`. -/
def cardNumXCalc (g : GeneratorConfig) (px : ℚ) : ℤ :=
  (divmodQ ((pyRound (g.page_width - g.page_margin_x * 2) : ℤ) : ℚ)
    (px / g.image_dpi)).1

/-- `self._card_num_y`: first component of
`divmod(round(self.page_height - self.page_margin_y * 2), image_height)`. -/
def cardNumYCalc (g : GeneratorConfig) (py : ℚ) : ℤ :=
  (divmodQ ((pyRound (g.page_height - g.page_margin_y * 2) : ℤ) : ℚ)
    (py / g.image_dpi)).1

/-- `self._cut_margin_x`: remainder of the same `divmod`, then
`self._cut_margin_x / 2 + self.page_margin_x`. -/
def cutMarginXCalc (g : GeneratorConfig) (px : ℚ) : ℚ :=
  (divmodQ ((pyRound (g.page_width - g.page_margin_x * 2) : ℤ) : ℚ)
    (px / g.image_dpi)).2 / 2 + g.page_margin_x

/-- `self._cut_margin_y`, analogous to `cutMarginXCalc`. -/
def cutMarginYCalc (g : GeneratorConfig) (py : ℚ) : ℚ :=
  (divmodQ ((pyRound (g.page_height - g.page_margin_y * 2) : ℤ) : ℚ)
    (py / g.image_dpi)).2 / 2 + g.page_margin_y

/-- The `for cnt in range(self._card_num_x)` loop of
`_generate_cut_line`, generating the vertical cutlines from running
left edge `prev`. -/
def vlines (page_height image_width trim_x : ℚ) : ℕ → ℚ → List CutLine
  | 0, _ => []
  | n + 1, prev =>
    let next := prev + image_width
    (if trim_x ≠ 0 then
      [⟨prev + trim_x, 0, prev + trim_x, page_height⟩,
       ⟨next - trim_x, 0, next - trim_x, page_height⟩]
    else
      [⟨next, 0, next, page_height⟩])
    ++ vlines page_height image_width trim_x n next

/-- The `for cnt in range(self._card_num_y)` loop of
`_generate_cut_line`, generating the horizontal cutlines. -/
def hlines (page_width image_height trim_y : ℚ) : ℕ → ℚ → List CutLine
  | 0, _ => []
  | n + 1, prev =>
    let next := prev + image_height
    (if trim_y ≠ 0 then
      [⟨0, prev + trim_y, page_width, prev + trim_y⟩,
       ⟨0, next - trim_y, page_width, next - trim_y⟩]
    else
      [⟨0, next, page_width, next⟩])
    ++ hlines page_width image_height trim_y n next

/-- `BaseGenerator._generate_cut_line`: computes the grid capacity and
cut margins by `divmod`, raises `RuntimeError('Image too large for the
page')` when either card count is zero, and otherwise builds the
cutline list (vertical lines first, then horizontal ones; in clean-cut
mode the leftmost / topmost line precedes the per-column loop).
`px`, `py` are the image dimensions in pixels (`image_dimension`). -/
def generateCutLineMeta (g : GeneratorConfig) (px py : ℚ)
    (trim_x trim_y : ℚ) : Except String PageMeta :=
  let image_width := px / g.image_dpi
  let image_height := py / g.image_dpi
  let card_num_x := cardNumXCalc g px
  let card_num_y := cardNumYCalc g py
  let cut_margin_x := cutMarginXCalc g px
  let cut_margin_y := cutMarginYCalc g py
  if card_num_x = 0 ∨ card_num_y = 0 then
    Except.error "Image too large for the page"
  else
    Except.ok
      { card_num_x := card_num_x
        card_num_y := card_num_y
        cut_margin_x := cut_margin_x
        cut_margin_y := cut_margin_y
        cutline_set :=
          (if ¬trim_x ≠ 0 then
            [⟨cut_margin_x, 0, cut_margin_x, g.page_height⟩] else [])
          ++ vlines g.page_height image_width trim_x
              card_num_x.toNat cut_margin_x
          ++ (if ¬trim_y ≠ 0 then
            [⟨0, cut_margin_y, g.page_width, cut_margin_y⟩] else [])
          ++ hlines g.page_width image_height trim_y
              card_num_y.toNat cut_margin_y }

/-- A call made by `generate` on the abstract drawing surface:
`_initialize_page`, `_draw_cutlines`, `_draw_image` (with the image
handle and its placement position) or `_render_page`. -/
inductive Event where
  | startPage : Event
  | drawCutlines : Event
  | drawImage : ℕ → ℚ → ℚ → Event
  | finishPage : Event
deriving DecidableEq

/-- The per-run state `generate` reads while looping over the images. -/
structure RunContext where
  page_width : ℚ
  cut_margin_x : ℚ
  cut_margin_y : ℚ
  card_num_x : ℤ
  card_num_y : ℤ
  image_width : ℚ
  image_height : ℚ
  layer : String
  rtl : Bool
deriving DecidableEq

/-- `self._card_num_x` as a natural loop bound. -/
def cxN (ctx : RunContext) : ℕ := ctx.card_num_x.toNat

/-- `self._card_num_y` as a natural loop bound. -/
def cyN (ctx : RunContext) : ℕ := ctx.card_num_y.toNat

/-- The `x_pos` computation of `generate` for column counter `x`. -/
def xPos (ctx : RunContext) (x : ℕ) : ℚ :=
  if ctx.rtl then
    ctx.page_width - ctx.cut_margin_x - (((x : ℚ) + 1) * ctx.image_width)
  else
    ctx.cut_margin_x + (x : ℚ) * ctx.image_width

/-- The `y_pos` computation of `generate` for row counter `y`. -/
def yPos (ctx : RunContext) (y : ℕ) : ℚ :=
  ctx.cut_margin_y + (y : ℚ) * ctx.image_height

/-- The cursor-advance logic at the end of each loop iteration of
`generate`: increment `x_cnt`; on reaching `_card_num_x` wrap to the
next row; when `y_cnt` reaches `_card_num_y` reset the cursor to
`(0,0)` and report that the page must be flushed. -/
def advance (cx cy : ℤ) (x y : ℕ) : ℕ × ℕ × Bool :=
  let x1 := x + 1
  let p := if (x1 : ℤ) ≥ cx then (0, y + 1) else (x1, y)
  if (p.2 : ℤ) ≥ cy then (0, 0, true) else (p.1, p.2, false)

/-- Events of a fresh page: `_initialize_page()` then, when the
cutlines are on the bottom layer, `_draw_cutlines(...)`. -/
def startEvts (ctx : RunContext) : List Event :=
  Event.startPage ::
    (if ctx.layer = "bottom" then [Event.drawCutlines] else [])

/-- Events of flushing a page: `_draw_cutlines(...)` when the cutlines
are on the top layer, then `_render_page()`. -/
def flushEvts (ctx : RunContext) : List Event :=
  (if ctx.layer = "top" then [Event.drawCutlines] else [])
    ++ [Event.finishPage]

/-- The image loop of `BaseGenerator.generate` with cursor
`(x_cnt, y_cnt)`, recording the calls on the drawing surface. After
the loop, a leftover page (cursor not at the origin) is flushed. -/
def genLoop (ctx : RunContext) : List ℕ → ℕ → ℕ → List Event
  | [], x, y => if x ≠ 0 ∨ y ≠ 0 then flushEvts ctx else []
  | img :: rest, x, y =>
    (if x = 0 ∧ y = 0 then startEvts ctx else [])
    ++ Event.drawImage img (xPos ctx x) (yPos ctx y)
    :: (match advance ctx.card_num_x ctx.card_num_y x y with
        | (x1, y1, true) => flushEvts ctx ++ genLoop ctx rest x1 y1
        | (x1, y1, false) => genLoop ctx rest x1 y1)

/-- The run context `generate` assembles from the generator state, the
metadata computed by `_generate_cut_line`, and its own arguments. -/
def mkCtx (g : GeneratorConfig) (px py : ℚ) (m : PageMeta)
    (cfg : CutlineConfig) (rtl : Bool) : RunContext :=
  { page_width := g.page_width
    cut_margin_x := m.cut_margin_x
    cut_margin_y := m.cut_margin_y
    card_num_x := m.card_num_x
    card_num_y := m.card_num_y
    image_width := px / g.image_dpi
    image_height := py / g.image_dpi
    layer := cfg.layer
    rtl := rtl }

/-- `BaseGenerator.generate`: first `_generate_cut_line` (which raises
before anything is drawn when the image does not fit), then the image
loop from cursor `(0,0)`. The result is the trace of drawing-surface
calls plus the error message, if any: an error aborts the run before
any call is made. -/
def generate (g : GeneratorConfig) (px py : ℚ) (images : List ℕ)
    (cfg : CutlineConfig) (rtl : Bool) : List Event × Option String :=
  match generateCutLineMeta g px py cfg.trim_offset_x cfg.trim_offset_y with
  | Except.error e => ([], some e)
  | Except.ok m => (genLoop (mkCtx g px py m cfg rtl) images 0 0, none)

/-! ## Spec-side formulas (written from the specification's words, for
comparison with the code-side computation) -/

/-- Spec: "Usable width = `pageSpec.width - 2*pageSpec.marginX`". -/
def specUsableWidth (g : GeneratorConfig) : ℚ :=
  g.page_width - 2 * g.page_margin_x

/-- Spec: usable height, analogous. -/
def specUsableHeight (g : GeneratorConfig) : ℚ :=
  g.page_height - 2 * g.page_margin_y

/-- Spec: "`cardsPerRow = floor(usableWidth / imageWidth)`" (image
width in linear units, i.e. pixels over dpi). -/
def specCardsPerRow (g : GeneratorConfig) (px : ℚ) : ℤ :=
  ⌊specUsableWidth g / (px / g.image_dpi)⌋

/-- Spec: cards per column, analogous. -/
def specCardsPerCol (g : GeneratorConfig) (py : ℚ) : ℤ :=
  ⌊specUsableHeight g / (py / g.image_dpi)⌋

/-- Spec: "remainder `r = usableWidth - cardsPerRow*imageWidth`". -/
def specRemainderX (g : GeneratorConfig) (px : ℚ) : ℚ :=
  specUsableWidth g - (specCardsPerRow g px : ℚ) * (px / g.image_dpi)

/-- Spec: vertical remainder, analogous. -/
def specRemainderY (g : GeneratorConfig) (py : ℚ) : ℚ :=
  specUsableHeight g - (specCardsPerCol g py : ℚ) * (py / g.image_dpi)

/-- Spec: "`cutMarginX = r/2 + pageSpec.marginX`". -/
def specCutMarginX (g : GeneratorConfig) (px : ℚ) : ℚ :=
  specRemainderX g px / 2 + g.page_margin_x

/-- Spec: vertical cut margin, analogous. -/
def specCutMarginY (g : GeneratorConfig) (py : ℚ) : ℚ :=
  specRemainderY g py / 2 + g.page_margin_y

/-! ## Projections used to state concrete counterexamples -/

/-- Whether `_generate_cut_line` succeeded. -/
def metaOk (e : Except String PageMeta) : Bool :=
  match e with
  | Except.ok _ => true
  | Except.error _ => false

/-- The computed `_card_num_x` (0 when the computation failed). -/
def metaCardNumX (e : Except String PageMeta) : ℤ :=
  match e with
  | Except.ok m => m.card_num_x
  | Except.error _ => 0

/-- The computed `_card_num_y` (0 when the computation failed). -/
def metaCardNumY (e : Except String PageMeta) : ℤ :=
  match e with
  | Except.ok m => m.card_num_y
  | Except.error _ => 0

/-- The computed `_cut_margin_x` (0 when the computation failed). -/
def metaCutMarginX (e : Except String PageMeta) : ℚ :=
  match e with
  | Except.ok m => m.cut_margin_x
  | Except.error _ => 0

/-- The computed `_cut_margin_y` (0 when the computation failed). -/
def metaCutMarginY (e : Except String PageMeta) : ℚ :=
  match e with
  | Except.ok m => m.cut_margin_y
  | Except.error _ => 0

/-- The computed `_cutline_set` ([] when the computation failed). -/
def metaCutlines (e : Except String PageMeta) : List CutLine :=
  match e with
  | Except.ok m => m.cutline_set
  | Except.error _ => []

/-! ## Concrete configurations used in counterexamples and witnesses -/

/-- Page 11.2 × 10, margins 0.3 / 0.5, dpi 1: the usable width is the
non-integer 10.6, which Python's `round` turns into 11. -/
def gC1 : GeneratorConfig := ⟨56/5, 10, 3/10, 1/2, 1, 96⟩

/-- Page 10.8 × 10.8, margins 0.1, dpi 5: a 53 × 53 pixel image is
exactly the (non-integer) usable area 10.6 × 10.6. -/
def gC2 : GeneratorConfig := ⟨54/5, 54/5, 1/10, 1/10, 5, 96⟩

/-- Page 2 × 2, margins 0.5, dpi 1: a 1 × 1 pixel image fills the
usable area exactly once per axis. -/
def gW1 : GeneratorConfig := ⟨2, 2, 1/2, 1/2, 1, 96⟩

/-- The page of the specification's worked scenario: 2100 × 2970,
margins 30, images 600 × 900 pixels at dpi 1 → a 3 × 3 grid with cut
margins 150 and 135. -/
def gS : GeneratorConfig := ⟨2100, 2970, 30, 30, 1, 96⟩

/-- Page 1 × 10 with x-margin 2 (margins exceeding half the page
width): the usable width is -3, and `divmod(-3, 2.0)` yields the
negative card count -2, which passes the zero check. -/
def gC4 : GeneratorConfig := ⟨1, 10, 2, 1, 1, 96⟩

/-- Page 3 × 3, margins 0.5, dpi 1, image 1 × 1 pixel: a 2 × 2 grid
with cut margins 0.5; used with trim offset 1 = image width. -/
def gC5 : GeneratorConfig := ⟨3, 3, 1/2, 1/2, 1, 96⟩

/-! ## Trace observations -/

/-- Is the event an `_initialize_page()` call? -/
def isStartPage : Event → Bool
  | Event.startPage => true
  | _ => false

/-- Is the event a `_render_page()` call? -/
def isFinishPage : Event → Bool
  | Event.finishPage => true
  | _ => false

/-- Is the event a `_draw_cutlines(...)` call? -/
def isDrawCutlines : Event → Bool
  | Event.drawCutlines => true
  | _ => false

/-- Is the event a `_draw_image(...)` call? -/
def isDrawImage : Event → Bool
  | Event.drawImage _ _ _ => true
  | _ => false

/-- A cutline is vertical when its two x-coordinates agree. -/
def isVerticalLine (l : CutLine) : Bool := decide (l.x0 = l.x1)

/-- A cutline is horizontal when its two y-coordinates agree. -/
def isHorizontalLine (l : CutLine) : Bool := decide (l.y0 = l.y1)

/-- The number of images drawn on each rendered page: counts
`drawImage` events, cutting the trace at each `finishPage`. `acc` is
the number of images already drawn on the currently open page. -/
def imagesPerPage : List Event → ℕ → List ℕ
  | [], _ => []
  | Event.finishPage :: rest, acc => acc :: imagesPerPage rest 0
  | Event.drawImage _ _ _ :: rest, acc => imagesPerPage rest (acc + 1)
  | Event.startPage :: rest, acc => imagesPerPage rest acc
  | Event.drawCutlines :: rest, acc => imagesPerPage rest acc

/-! ## A one-counter reformulation of the image loop

The loop of `generate` is driven by the pair `(x_cnt, y_cnt)`; under
the cursor invariant the pair is equivalent to the single counter
`m = x_cnt + card_num_x * y_cnt` of images already placed on the open
page. `genLoopM` is that reformulation; `genLoop_eq_genLoopM` below
proves it equal to `genLoop`. -/

/-- The events drawing the images `as` starting from on-page index
`m`, each at the cell position of its cursor `(m % cols, m / cols)`. -/
def drawSeq (ctx : RunContext) : List ℕ → ℕ → List Event
  | [], _ => []
  | img :: rest, m =>
    Event.drawImage img (xPos ctx (m % cxN ctx)) (yPos ctx (m / cxN ctx))
      :: drawSeq ctx rest (m + 1)

/-- The image loop with the single on-page counter `m`. -/
def genLoopM (ctx : RunContext) : List ℕ → ℕ → List Event
  | [], m => if m ≠ 0 then flushEvts ctx else []
  | img :: rest, m =>
    (if m = 0 then startEvts ctx else [])
    ++ Event.drawImage img (xPos ctx (m % cxN ctx)) (yPos ctx (m / cxN ctx))
    :: (if m + 1 = cxN ctx * cyN ctx then
          flushEvts ctx ++ genLoopM ctx rest 0
        else genLoopM ctx rest (m + 1))

/-- The full event block of one rendered page holding the images
`as`: page start (with bottom-layer cutlines), the image draws, then
top-layer cutlines and the page render. -/
def pageBlock (ctx : RunContext) (as : List ℕ) : List Event :=
  startEvts ctx ++ drawSeq ctx as 0 ++ flushEvts ctx

/-- Splits a list into consecutive chunks of `k` elements, the last
chunk possibly shorter. -/
def chunksOf {α : Type} (k : ℕ) : List α → List (List α)
  | [] => []
  | a :: l => (a :: l.take (k - 1)) :: chunksOf k (l.drop (k - 1))
termination_by l => l.length
decreasing_by
  simp only [List.length_drop, List.length_cons]
  omega

/-- The metadata `_generate_cut_line` computes for `gW1` with a 1 × 1
pixel image and zero trim offset. -/
def mW1 : PageMeta :=
  { card_num_x := 1
    card_num_y := 1
    cut_margin_x := 1/2
    cut_margin_y := 1/2
    cutline_set :=
      [⟨1/2, 0, 1/2, 2⟩, ⟨3/2, 0, 3/2, 2⟩,
       ⟨0, 1/2, 2, 1/2⟩, ⟨0, 3/2, 2, 3/2⟩] }

/-- The metadata record `_generate_cut_line` stores on success. -/
def metaRecord (g : GeneratorConfig) (px py tx ty : ℚ) : PageMeta :=
  { card_num_x := cardNumXCalc g px
    card_num_y := cardNumYCalc g py
    cut_margin_x := cutMarginXCalc g px
    cut_margin_y := cutMarginYCalc g py
    cutline_set :=
      (if ¬tx ≠ 0 then
        [⟨cutMarginXCalc g px, 0, cutMarginXCalc g px, g.page_height⟩]
      else [])
      ++ vlines g.page_height (px / g.image_dpi) tx
          (cardNumXCalc g px).toNat (cutMarginXCalc g px)
      ++ (if ¬ty ≠ 0 then
        [⟨0, cutMarginYCalc g py, g.page_width, cutMarginYCalc g py⟩]
      else [])
      ++ hlines g.page_width (py / g.image_dpi) ty
          (cardNumYCalc g py).toNat (cutMarginYCalc g py) }

/-- The metadata `_generate_cut_line` computes for `gS` with 600 × 900
pixel images and zero trim offset (the spec's worked scenario). -/
def mS : PageMeta :=
  { card_num_x := 3
    card_num_y := 3
    cut_margin_x := 150
    cut_margin_y := 135
    cutline_set :=
      [⟨150, 0, 150, 2970⟩, ⟨750, 0, 750, 2970⟩,
       ⟨1350, 0, 1350, 2970⟩, ⟨1950, 0, 1950, 2970⟩,
       ⟨0, 135, 2100, 135⟩, ⟨0, 1035, 2100, 1035⟩,
       ⟨0, 1935, 2100, 1935⟩, ⟨0, 2835, 2100, 2835⟩] }

/-- The metadata `_generate_cut_line` computes for `gS` with 600 × 900
pixel images and trim offset (10, 10) (the spec's second scenario). -/
def mS10 : PageMeta :=
  { card_num_x := 3
    card_num_y := 3
    cut_margin_x := 150
    cut_margin_y := 135
    cutline_set :=
      [⟨160, 0, 160, 2970⟩, ⟨740, 0, 740, 2970⟩,
       ⟨760, 0, 760, 2970⟩, ⟨1340, 0, 1340, 2970⟩,
       ⟨1360, 0, 1360, 2970⟩, ⟨1940, 0, 1940, 2970⟩,
       ⟨0, 145, 2100, 145⟩, ⟨0, 1025, 2100, 1025⟩,
       ⟨0, 1045, 2100, 1045⟩, ⟨0, 1925, 2100, 1925⟩,
       ⟨0, 1945, 2100, 1945⟩, ⟨0, 2825, 2100, 2825⟩] }

/-! ## Theorems -/

/-- `_generate_cut_line` is the zero-card check followed by
`metaRecord`. -/
theorem generateCutLineMeta_eq (g : GeneratorConfig) (px py tx ty : ℚ) :
    generateCutLineMeta g px py tx ty =
      if cardNumXCalc g px = 0 ∨ cardNumYCalc g py = 0 then
        Except.error "Image too large for the page"
      else Except.ok (metaRecord g px py tx ty) := by
  simp only [generateCutLineMeta, metaRecord]

/-- C1, counterexample: on page `gC1` the usable width is the
non-integer 10.6, which the code first rounds to 11 (`divmod(round(.),
image_width)`), so the computed `cardsPerRow` is 11 while the claimed
`floor(usableWidth / imageWidth)` is 10; likewise the claimed
remainder formula gives cut margin 0.6 where the code computes 0.3. -/
theorem claim_C1_cex :
    metaOk (generateCutLineMeta gC1 1 9 0 0) = true ∧
    metaCardNumX (generateCutLineMeta gC1 1 9 0 0) = 11 ∧
    specCardsPerRow gC1 1 = 10 ∧
    metaCardNumX (generateCutLineMeta gC1 1 9 0 0) ≠ specCardsPerRow gC1 1 ∧
    metaCutMarginX (generateCutLineMeta gC1 1 9 0 0) ≠ specCutMarginX gC1 1 := by
  refine ⟨?_, ?_, ?_, ?_, ?_⟩ <;>
    norm_num [metaOk, metaCardNumX, metaCutMarginX, generateCutLineMeta,
      cardNumXCalc, cardNumYCalc, cutMarginXCalc, cutMarginYCalc, divmodQ,
      pyRound, gC1, specCardsPerRow, specCardsPerCol, specCutMarginX,
      specUsableWidth, specUsableHeight, specRemainderX, vlines, hlines]

/-- C1 (amended): the computed grid capacity and centering follow the
claimed formulas with `usableWidth` first passed through Python's
`round` (half to even): `cardsPerRow = floor(round(usableWidth) /
imageWidth)`, `cutMarginX = (round(usableWidth) -
cardsPerRow*imageWidth)/2 + marginX`, and the same formulas on the
vertical axis. -/
theorem claim_C1 (g : GeneratorConfig) (px py tx ty : ℚ) (m : PageMeta)
    (h : generateCutLineMeta g px py tx ty = Except.ok m) :
    (m.card_num_x =
        ⌊((pyRound (specUsableWidth g) : ℤ) : ℚ) / (px / g.image_dpi)⌋ ∧
      m.cut_margin_x =
        (((pyRound (specUsableWidth g) : ℤ) : ℚ)
          - (m.card_num_x : ℚ) * (px / g.image_dpi)) / 2 + g.page_margin_x) ∧
    (m.card_num_y =
        ⌊((pyRound (specUsableHeight g) : ℤ) : ℚ) / (py / g.image_dpi)⌋ ∧
      m.cut_margin_y =
        (((pyRound (specUsableHeight g) : ℤ) : ℚ)
          - (m.card_num_y : ℚ) * (py / g.image_dpi)) / 2 + g.page_margin_y) := by
  have hx : g.page_width - g.page_margin_x * 2 = specUsableWidth g := by
    rw [specUsableWidth]; ring
  have hy : g.page_height - g.page_margin_y * 2 = specUsableHeight g := by
    rw [specUsableHeight]; ring
  simp only [generateCutLineMeta] at h
  split at h
  · exact Except.noConfusion h
  · injection h with h2
    subst h2
    refine ⟨⟨?_, ?_⟩, ⟨?_, ?_⟩⟩ <;>
      simp only [cardNumXCalc, cardNumYCalc, cutMarginXCalc, cutMarginYCalc,
        divmodQ, hx, hy]

/-- C1, witness: the amended formulas evaluated on the 1 × 1-grid
configuration `gW1`. -/
theorem claim_C1_witness :
    (mW1.card_num_x =
        ⌊((pyRound (specUsableWidth gW1) : ℤ) : ℚ) / (1 / gW1.image_dpi)⌋ ∧
      mW1.cut_margin_x =
        (((pyRound (specUsableWidth gW1) : ℤ) : ℚ)
          - (mW1.card_num_x : ℚ) * (1 / gW1.image_dpi)) / 2
          + gW1.page_margin_x) ∧
    (mW1.card_num_y =
        ⌊((pyRound (specUsableHeight gW1) : ℤ) : ℚ) / (1 / gW1.image_dpi)⌋ ∧
      mW1.cut_margin_y =
        (((pyRound (specUsableHeight gW1) : ℤ) : ℚ)
          - (mW1.card_num_y : ℚ) * (1 / gW1.image_dpi)) / 2
          + gW1.page_margin_y) :=
  claim_C1 gW1 1 1 0 0 mW1 (by
    norm_num [generateCutLineMeta, cardNumXCalc, cardNumYCalc,
      cutMarginXCalc, cutMarginYCalc, divmodQ, pyRound, gW1, mW1,
      vlines, hlines])

/-- C2, counterexample: on page `gC2` a 53 × 53-pixel image at dpi 5
is exactly the usable area 10.6 × 10.6; `cardsPerRow` and
`cardsPerCol` are indeed 1, but because the code rounds the usable
width to 11 before `divmod`, the remainder is 0.4 and the computed
`cutMarginX` is 0.3 ≠ `marginX` = 0.1. -/
theorem claim_C2_cex :
    (53 : ℚ) / gC2.image_dpi = gC2.page_width - 2 * gC2.page_margin_x ∧
    (53 : ℚ) / gC2.image_dpi = gC2.page_height - 2 * gC2.page_margin_y ∧
    metaOk (generateCutLineMeta gC2 53 53 0 0) = true ∧
    metaCardNumX (generateCutLineMeta gC2 53 53 0 0) = 1 ∧
    metaCardNumY (generateCutLineMeta gC2 53 53 0 0) = 1 ∧
    metaCutMarginX (generateCutLineMeta gC2 53 53 0 0) ≠
      gC2.page_margin_x := by
  refine ⟨?_, ?_, ?_, ?_, ?_, ?_⟩ <;>
    norm_num [metaOk, metaCardNumX, metaCardNumY, metaCutMarginX,
      generateCutLineMeta, cardNumXCalc, cardNumYCalc, cutMarginXCalc,
      cutMarginYCalc, divmodQ, pyRound, gC2]

/-- C2 (amended): when the image equals the usable page area exactly
AND the usable width and height are unchanged by Python's `round`
(in particular whenever they are whole numbers) and positive, grid
capacity computation succeeds with `cardsPerRow = cardsPerCol = 1`,
`cutMarginX = marginX` and `cutMarginY = marginY`. -/
theorem claim_C2 (g : GeneratorConfig) (px py tx ty : ℚ)
    (h1 : px / g.image_dpi = g.page_width - 2 * g.page_margin_x)
    (h2 : py / g.image_dpi = g.page_height - 2 * g.page_margin_y)
    (h3 : ((pyRound (g.page_width - g.page_margin_x * 2) : ℤ) : ℚ) =
      g.page_width - g.page_margin_x * 2)
    (h4 : ((pyRound (g.page_height - g.page_margin_y * 2) : ℤ) : ℚ) =
      g.page_height - g.page_margin_y * 2)
    (h5 : 0 < g.page_width - 2 * g.page_margin_x)
    (h6 : 0 < g.page_height - 2 * g.page_margin_y) :
    ∃ m, generateCutLineMeta g px py tx ty = Except.ok m ∧
      m.card_num_x = 1 ∧ m.card_num_y = 1 ∧
      m.cut_margin_x = g.page_margin_x ∧
      m.cut_margin_y = g.page_margin_y := by
  have hX : (0 : ℚ) < g.page_width - g.page_margin_x * 2 := by linarith
  have hY : (0 : ℚ) < g.page_height - g.page_margin_y * 2 := by linarith
  have hu : px / g.image_dpi = g.page_width - g.page_margin_x * 2 := by
    rw [h1]; ring
  have hv : py / g.image_dpi = g.page_height - g.page_margin_y * 2 := by
    rw [h2]; ring
  have hcx : cardNumXCalc g px = 1 := by
    rw [cardNumXCalc, divmodQ]
    dsimp only
    rw [h3, hu, div_self hX.ne']
    exact Int.floor_one
  have hcy : cardNumYCalc g py = 1 := by
    rw [cardNumYCalc, divmodQ]
    dsimp only
    rw [h4, hv, div_self hY.ne']
    exact Int.floor_one
  have hmx : cutMarginXCalc g px = g.page_margin_x := by
    rw [cutMarginXCalc, divmodQ]
    dsimp only
    rw [h3, hu, div_self hX.ne', Int.floor_one]
    push_cast
    ring
  have hmy : cutMarginYCalc g py = g.page_margin_y := by
    rw [cutMarginYCalc, divmodQ]
    dsimp only
    rw [h4, hv, div_self hY.ne', Int.floor_one]
    push_cast
    ring
  refine ⟨metaRecord g px py tx ty, ?_, hcx, hcy, hmx, hmy⟩
  rw [generateCutLineMeta_eq, if_neg]
  simp [hcx, hcy]

/-- C2, witness: the amended claim evaluated on `gW1`, whose usable
area is the integral square 1 × 1 filled exactly by a 1 × 1-pixel
image at dpi 1. -/
theorem claim_C2_witness :
    ((1 : ℚ) / gW1.image_dpi = gW1.page_width - 2 * gW1.page_margin_x) ∧
    (((pyRound (gW1.page_width - gW1.page_margin_x * 2) : ℤ) : ℚ) =
      gW1.page_width - gW1.page_margin_x * 2) ∧
    (0 : ℚ) < gW1.page_width - 2 * gW1.page_margin_x ∧
    ∃ m, generateCutLineMeta gW1 1 1 0 0 = Except.ok m ∧
      m.card_num_x = 1 ∧ m.card_num_y = 1 ∧
      m.cut_margin_x = gW1.page_margin_x ∧
      m.cut_margin_y = gW1.page_margin_y :=
  ⟨by norm_num [gW1], by norm_num [gW1, pyRound], by norm_num [gW1],
    claim_C2 gW1 1 1 0 0 (by norm_num [gW1]) (by norm_num [gW1])
      (by norm_num [gW1, pyRound]) (by norm_num [gW1, pyRound])
      (by norm_num [gW1]) (by norm_num [gW1])⟩

/-- C3 (confirmed): `generate` fails — with the
`RuntimeError('Image too large for the page')` that the spec calls
`LayoutError` — exactly when the computed `cardsPerRow` or
`cardsPerCol` is zero, and on failure the trace of drawing-surface
calls is empty: no page is started, no image or line drawn, no page
finished. -/
theorem claim_C3 (g : GeneratorConfig) (px py : ℚ) (images : List ℕ)
    (cfg : CutlineConfig) (rtl : Bool) :
    ((generate g px py images cfg rtl).2 =
        some "Image too large for the page" ↔
      cardNumXCalc g px = 0 ∨ cardNumYCalc g py = 0) ∧
    ∀ e, (generate g px py images cfg rtl).2 = some e →
      (generate g px py images cfg rtl).1 = [] := by
  by_cases hc : cardNumXCalc g px = 0 ∨ cardNumYCalc g py = 0 <;>
    simp [generate, generateCutLineMeta_eq, hc]

/-- C3, witness: a 3000-pixel-wide image on the scenario page `gS`
(usable width 2040) yields `cardsPerRow = 0`, the layout error, and an
empty trace; evaluated through `claim_C3`. -/
theorem claim_C3_witness :
    ((generate gS 3000 900 [0, 1] ⟨0, 0, "top"⟩ false).2 =
        some "Image too large for the page" ↔
      cardNumXCalc gS 3000 = 0 ∨ cardNumYCalc gS 900 = 0) ∧
    ∀ e, (generate gS 3000 900 [0, 1] ⟨0, 0, "top"⟩ false).2 = some e →
      (generate gS 3000 900 [0, 1] ⟨0, 0, "top"⟩ false).1 = [] :=
  claim_C3 gS 3000 900 [0, 1] ⟨0, 0, "top"⟩ false

/-- Each iteration of the vertical cutline loop emits two vertical
lines in trim mode and one in clean-cut mode. -/
theorem vlines_countP_vert (ph iw t : ℚ) :
    ∀ (n : ℕ) (p : ℚ), (vlines ph iw t n p).countP isVerticalLine =
      if t ≠ 0 then 2 * n else n := by
  intro n
  induction n with
  | zero => intro p; simp [vlines]
  | succ k ih =>
    intro p
    rw [vlines]
    by_cases ht : t ≠ 0 <;>
      simp [ht, List.countP_append, List.countP_cons, isVerticalLine, ih] <;>
      ring

/-- Vertical cutlines span `y = 0` to `y = page_height`, so none of
them is horizontal on a page of nonzero height. -/
theorem vlines_countP_horiz (ph iw t : ℚ) (hph : ph ≠ 0) :
    ∀ (n : ℕ) (p : ℚ), (vlines ph iw t n p).countP isHorizontalLine = 0 := by
  intro n
  induction n with
  | zero => intro p; simp [vlines]
  | succ k ih =>
    intro p
    rw [vlines]
    by_cases ht : t ≠ 0 <;>
      simp [ht, List.countP_append, List.countP_cons, isHorizontalLine,
        ih, Ne.symm hph]

/-- Each iteration of the horizontal cutline loop emits two horizontal
lines in trim mode and one in clean-cut mode. -/
theorem hlines_countP_horiz (pw ih t : ℚ) :
    ∀ (n : ℕ) (p : ℚ), (hlines pw ih t n p).countP isHorizontalLine =
      if t ≠ 0 then 2 * n else n := by
  intro n
  induction n with
  | zero => intro p; simp [hlines]
  | succ k ihn =>
    intro p
    rw [hlines]
    by_cases ht : t ≠ 0 <;>
      simp [ht, List.countP_append, List.countP_cons, isHorizontalLine,
        ihn] <;> ring

/-- Horizontal cutlines span `x = 0` to `x = page_width`, so none of
them is vertical on a page of nonzero width. -/
theorem hlines_countP_vert (pw ih t : ℚ) (hpw : pw ≠ 0) :
    ∀ (n : ℕ) (p : ℚ), (hlines pw ih t n p).countP isVerticalLine = 0 := by
  intro n
  induction n with
  | zero => intro p; simp [hlines]
  | succ k ihn =>
    intro p
    rw [hlines]
    by_cases ht : t ≠ 0 <;>
      simp [ht, List.countP_append, List.countP_cons, isVerticalLine,
        ihn, Ne.symm hpw]

/-- C4, counterexample: on page `gC4` the x-margin (2) exceeds half
the page width (1), the usable width is -3 and `divmod(-3, 2.0)` makes
`cardsPerRow = -2`, which passes the zero check, so the layout is
"successful"; with zero trim offset exactly one vertical line is
emitted (the leftmost one), but the claimed count `cardsPerRow + 1`
is -1. -/
theorem claim_C4_cex :
    metaOk (generateCutLineMeta gC4 2 4 0 0) = true ∧
    metaCardNumX (generateCutLineMeta gC4 2 4 0 0) = -2 ∧
    ((metaCutlines (generateCutLineMeta gC4 2 4 0 0)).countP
        isVerticalLine : ℤ) = 1 ∧
    ((metaCutlines (generateCutLineMeta gC4 2 4 0 0)).countP
        isVerticalLine : ℤ) ≠
      metaCardNumX (generateCutLineMeta gC4 2 4 0 0) + 1 := by
  refine ⟨?_, ?_, ?_, ?_⟩ <;>
    norm_num [metaOk, metaCardNumX, metaCutlines, generateCutLineMeta,
      cardNumXCalc, cardNumYCalc, cutMarginXCalc, cutMarginYCalc, divmodQ,
      pyRound, gC4, vlines, hlines, isVerticalLine, List.countP_cons,
      List.countP_append]

/-- C4 (amended): for every successful layout whose card counts are at
least 1 on both axes (margins not exceeding half the page, which the
zero check does not itself guarantee) and positive page dimensions,
the number of vertical cut lines is `cardsPerRow + 1` when
`trimOffset.x = 0` and `2 * cardsPerRow` when `trimOffset.x > 0`, and
the analogous counts hold for horizontal lines. -/
theorem claim_C4 (g : GeneratorConfig) (px py tx ty : ℚ) (m : PageMeta)
    (h : generateCutLineMeta g px py tx ty = Except.ok m)
    (hcx : 1 ≤ m.card_num_x) (hcy : 1 ≤ m.card_num_y)
    (hw : 0 < g.page_width) (hh : 0 < g.page_height) :
    ((tx = 0 → (m.cutline_set.countP isVerticalLine : ℤ) =
        m.card_num_x + 1) ∧
      (0 < tx → (m.cutline_set.countP isVerticalLine : ℤ) =
        2 * m.card_num_x)) ∧
    ((ty = 0 → (m.cutline_set.countP isHorizontalLine : ℤ) =
        m.card_num_y + 1) ∧
      (0 < ty → (m.cutline_set.countP isHorizontalLine : ℤ) =
        2 * m.card_num_y)) := by
  rw [generateCutLineMeta_eq] at h
  split at h
  · exact Except.noConfusion h
  · injection h with h2
    subst h2
    simp only [metaRecord] at hcx hcy ⊢
    have hnx : ((cardNumXCalc g px).toNat : ℤ) = cardNumXCalc g px :=
      Int.toNat_of_nonneg (le_trans Int.one_nonneg hcx)
    have hny : ((cardNumYCalc g py).toNat : ℤ) = cardNumYCalc g py :=
      Int.toNat_of_nonneg (le_trans Int.one_nonneg hcy)
    constructor
    · constructor
      · intro ht0
        subst ht0
        simp [List.countP_append, List.countP_cons, isVerticalLine,
          isHorizontalLine, vlines_countP_vert,
          hlines_countP_vert _ _ _ hw.ne', hnx, hw.ne, hh.ne]
      · intro htpos
        simp [List.countP_append, List.countP_cons, htpos.ne',
          isVerticalLine, isHorizontalLine, vlines_countP_vert,
          hlines_countP_vert _ _ _ hw.ne', hnx, hw.ne, hh.ne]
    · constructor
      · intro ht0
        subst ht0
        simp [List.countP_append, List.countP_cons, isVerticalLine,
          isHorizontalLine, hlines_countP_horiz,
          vlines_countP_horiz _ _ _ hh.ne', hny, hw.ne, hh.ne]
      · intro htpos
        simp [List.countP_append, List.countP_cons, htpos.ne',
          isVerticalLine, isHorizontalLine, hlines_countP_horiz,
          vlines_countP_horiz _ _ _ hh.ne', hny, hw.ne, hh.ne]

/-- C4, witness: the spec's scenario page `gS` with zero trim offset
has 4 vertical and 4 horizontal cut lines (grid 3 × 3). -/
theorem claim_C4_witness :
    (((0 : ℚ) = 0 → ((mS.cutline_set.countP isVerticalLine : ℤ) =
        mS.card_num_x + 1)) ∧
      ((0 : ℚ) < 0 → (mS.cutline_set.countP isVerticalLine : ℤ) =
        2 * mS.card_num_x)) ∧
    (((0 : ℚ) = 0 → ((mS.cutline_set.countP isHorizontalLine : ℤ) =
        mS.card_num_y + 1)) ∧
      ((0 : ℚ) < 0 → (mS.cutline_set.countP isHorizontalLine : ℤ) =
        2 * mS.card_num_y)) :=
  claim_C4 gS 600 900 0 0 mS
    (by norm_num [generateCutLineMeta, cardNumXCalc, cardNumYCalc,
      cutMarginXCalc, cutMarginYCalc, divmodQ, pyRound, gS, mS,
      vlines, hlines])
    (by norm_num [mS]) (by norm_num [mS])
    (by norm_num [gS]) (by norm_num [gS])

/-- Every vertical cutline runs from `y = 0` to `y = page_height` at a
single x-coordinate. -/
theorem vlines_shape (ph iw t : ℚ) :
    ∀ (n : ℕ) (p : ℚ) (l : CutLine), l ∈ vlines ph iw t n p →
      l.y0 = 0 ∧ l.y1 = ph ∧ l.x0 = l.x1 := by
  intro n
  induction n with
  | zero => intro p l hl; simp [vlines] at hl
  | succ k ihn =>
    intro p l hl
    rw [vlines] at hl
    by_cases ht : t ≠ 0 <;> simp [ht] at hl <;>
      rcases hl with hl | hl <;>
      first
        | (subst hl; exact ⟨rfl, rfl, rfl⟩)
        | (rcases hl with hl | hl
           · subst hl; exact ⟨rfl, rfl, rfl⟩
           · exact ihn _ l hl)
        | exact ihn _ l hl

/-- Every horizontal cutline runs from `x = 0` to `x = page_width` at
a single y-coordinate. -/
theorem hlines_shape (pw ih t : ℚ) :
    ∀ (n : ℕ) (p : ℚ) (l : CutLine), l ∈ hlines pw ih t n p →
      l.x0 = 0 ∧ l.x1 = pw ∧ l.y0 = l.y1 := by
  intro n
  induction n with
  | zero => intro p l hl; simp [hlines] at hl
  | succ k ihn =>
    intro p l hl
    rw [hlines] at hl
    by_cases ht : t ≠ 0 <;> simp [ht] at hl <;>
      rcases hl with hl | hl <;>
      first
        | (subst hl; exact ⟨rfl, rfl, rfl⟩)
        | (rcases hl with hl | hl
           · subst hl; exact ⟨rfl, rfl, rfl⟩
           · exact ihn _ l hl)
        | exact ihn _ l hl

/-- Closed form of the vertical cutline loop in trim mode, for a
running edge `j` image-widths to the right of the base `cm`: column
`j + k` contributes its two inset lines. -/
theorem vlines_trim (ph iw t : ℚ) (ht : t ≠ 0) :
    ∀ (n j : ℕ) (cm : ℚ),
      vlines ph iw t n (cm + (j : ℚ) * iw) =
        ((List.range n).map (fun k =>
          [CutLine.mk (cm + ((j + k : ℕ) : ℚ) * iw + t) 0
            (cm + ((j + k : ℕ) : ℚ) * iw + t) ph,
           CutLine.mk (cm + (((j + k : ℕ) : ℚ) + 1) * iw - t) 0
            (cm + (((j + k : ℕ) : ℚ) + 1) * iw - t) ph])).join := by
  intro n
  induction n with
  | zero => intro j cm; simp [vlines]
  | succ nn ihn =>
    intro j cm
    rw [vlines]
    have hnext : cm + (j : ℚ) * iw + iw = cm + ((j + 1 : ℕ) : ℚ) * iw := by
      push_cast
      ring
    rw [if_pos ht, hnext, ihn (j + 1) cm]
    rw [List.range_succ_eq_map, List.map_cons, List.map_map, List.join]
    have hfun :
        ((fun k =>
          [CutLine.mk (cm + ((j + k : ℕ) : ℚ) * iw + t) 0
            (cm + ((j + k : ℕ) : ℚ) * iw + t) ph,
           CutLine.mk (cm + (((j + k : ℕ) : ℚ) + 1) * iw - t) 0
            (cm + (((j + k : ℕ) : ℚ) + 1) * iw - t) ph]) ∘ Nat.succ) =
        (fun k =>
          [CutLine.mk (cm + ((j + 1 + k : ℕ) : ℚ) * iw + t) 0
            (cm + ((j + 1 + k : ℕ) : ℚ) * iw + t) ph,
           CutLine.mk (cm + (((j + 1 + k : ℕ) : ℚ) + 1) * iw - t) 0
            (cm + (((j + 1 + k : ℕ) : ℚ) + 1) * iw - t) ph]) := by
      funext k
      have hjk : j + Nat.succ k = j + 1 + k := by omega
      simp [Function.comp, hjk]
    rw [hfun]
    congr 1
    have h0 : ((j + 0 : ℕ) : ℚ) = (j : ℚ) := by push_cast; ring
    rw [h0]
    push_cast
    ring_nf

/-- Closed form of the horizontal cutline loop in trim mode. -/
theorem hlines_trim (pw ih t : ℚ) (ht : t ≠ 0) :
    ∀ (n j : ℕ) (cm : ℚ),
      hlines pw ih t n (cm + (j : ℚ) * ih) =
        ((List.range n).map (fun k =>
          [CutLine.mk 0 (cm + ((j + k : ℕ) : ℚ) * ih + t) pw
            (cm + ((j + k : ℕ) : ℚ) * ih + t),
           CutLine.mk 0 (cm + (((j + k : ℕ) : ℚ) + 1) * ih - t) pw
            (cm + (((j + k : ℕ) : ℚ) + 1) * ih - t)])).join := by
  intro n
  induction n with
  | zero => intro j cm; simp [hlines]
  | succ nn ihn =>
    intro j cm
    rw [hlines]
    have hnext : cm + (j : ℚ) * ih + ih = cm + ((j + 1 : ℕ) : ℚ) * ih := by
      push_cast
      ring
    rw [if_pos ht, hnext, ihn (j + 1) cm]
    rw [List.range_succ_eq_map, List.map_cons, List.map_map, List.join]
    have hfun :
        ((fun k =>
          [CutLine.mk 0 (cm + ((j + k : ℕ) : ℚ) * ih + t) pw
            (cm + ((j + k : ℕ) : ℚ) * ih + t),
           CutLine.mk 0 (cm + (((j + k : ℕ) : ℚ) + 1) * ih - t) pw
            (cm + (((j + k : ℕ) : ℚ) + 1) * ih - t)]) ∘ Nat.succ) =
        (fun k =>
          [CutLine.mk 0 (cm + ((j + 1 + k : ℕ) : ℚ) * ih + t) pw
            (cm + ((j + 1 + k : ℕ) : ℚ) * ih + t),
           CutLine.mk 0 (cm + (((j + 1 + k : ℕ) : ℚ) + 1) * ih - t) pw
            (cm + (((j + 1 + k : ℕ) : ℚ) + 1) * ih - t)]) := by
      funext k
      have hjk : j + Nat.succ k = j + 1 + k := by omega
      simp [Function.comp, hjk]
    rw [hfun]
    congr 1
    have h0 : ((j + 0 : ℕ) : ℚ) = (j : ℚ) := by push_cast; ring
    rw [h0]
    push_cast
    ring_nf

/-- C5, counterexample: on page `gC5` with trim offset equal to the
image width (trim 1, image 1 × 1 at dpi 1, grid 2 × 2, cut margin
0.5), a vertical trim line falls exactly on the outer boundary
`x = cutMarginX = 0.5`, contradicting the claim that no line is
emitted at the outer boundaries. -/
theorem claim_C5_cex :
    metaOk (generateCutLineMeta gC5 1 1 1 1) = true ∧
    (0 : ℚ) < 1 ∧
    metaCutMarginX (generateCutLineMeta gC5 1 1 1 1) = 1/2 ∧
    CutLine.mk (1/2) 0 (1/2) 3 ∈ metaCutlines (generateCutLineMeta gC5 1 1 1 1) ∧
    isVerticalLine (CutLine.mk (1/2) 0 (1/2) 3) = true := by
  refine ⟨?_, by norm_num, ?_, ?_, by simp [isVerticalLine]⟩ <;>
    norm_num [metaOk, metaCutMarginX, metaCutlines, generateCutLineMeta,
      cardNumXCalc, cardNumYCalc, cutMarginXCalc, cutMarginYCalc, divmodQ,
      pyRound, gC5, vlines, hlines]

/-- C5 (amended): for every successful layout with
`0 < trimOffset.x < imageWidth` and `0 < trimOffset.y < imageHeight`
(the counterexample shows `trimOffset = imageWidth` places trim lines
on the outer boundary), the vertical cut lines are exactly, for each
column `k`, the full-height pair at `prev + trim` and `next - trim`
with `prev = cutMarginX + k*imageWidth`, `next = prev + imageWidth`,
none of them on the outer boundaries `cutMarginX` and `cutMarginX +
cardsPerRow*imageWidth`; symmetrically on the Y axis. -/
theorem claim_C5 (g : GeneratorConfig) (px py tx ty : ℚ) (m : PageMeta)
    (h : generateCutLineMeta g px py tx ty = Except.ok m)
    (htx : 0 < tx) (hty : 0 < ty)
    (htxw : tx < px / g.image_dpi) (htyh : ty < py / g.image_dpi)
    (hw : 0 < g.page_width) (hh : 0 < g.page_height) :
    (m.cutline_set.filter isVerticalLine =
      ((List.range m.card_num_x.toNat).map (fun k : ℕ =>
        [CutLine.mk (m.cut_margin_x + (k : ℚ) * (px / g.image_dpi) + tx) 0
          (m.cut_margin_x + (k : ℚ) * (px / g.image_dpi) + tx) g.page_height,
         CutLine.mk
          (m.cut_margin_x + ((k : ℚ) + 1) * (px / g.image_dpi) - tx) 0
          (m.cut_margin_x + ((k : ℚ) + 1) * (px / g.image_dpi) - tx)
          g.page_height])).join) ∧
    (∀ l ∈ m.cutline_set, isVerticalLine l = true →
      l.x0 ≠ m.cut_margin_x ∧
      l.x0 ≠ m.cut_margin_x +
        (m.card_num_x : ℚ) * (px / g.image_dpi)) ∧
    (m.cutline_set.filter isHorizontalLine =
      ((List.range m.card_num_y.toNat).map (fun k : ℕ =>
        [CutLine.mk 0 (m.cut_margin_y + (k : ℚ) * (py / g.image_dpi) + ty)
          g.page_width (m.cut_margin_y + (k : ℚ) * (py / g.image_dpi) + ty),
         CutLine.mk 0
          (m.cut_margin_y + ((k : ℚ) + 1) * (py / g.image_dpi) - ty)
          g.page_width
          (m.cut_margin_y + ((k : ℚ) + 1) * (py / g.image_dpi) - ty)])).join) ∧
    (∀ l ∈ m.cutline_set, isHorizontalLine l = true →
      l.y0 ≠ m.cut_margin_y ∧
      l.y0 ≠ m.cut_margin_y +
        (m.card_num_y : ℚ) * (py / g.image_dpi)) := by
  have hiw : 0 < px / g.image_dpi := lt_trans htx htxw
  have hih : 0 < py / g.image_dpi := lt_trans hty htyh
  rw [generateCutLineMeta_eq] at h
  split at h
  · exact Except.noConfusion h
  · injection h with h2
    subst h2
    simp only [metaRecord]
    rw [if_neg (by simp [htx.ne']), if_neg (by simp [hty.ne'])]
    simp only [List.nil_append, List.append_nil]
    set iw := px / g.image_dpi with hiwdef
    set ih := py / g.image_dpi with hihdef
    set cm := cutMarginXCalc g px with hcmdef
    set cmy := cutMarginYCalc g py with hcmydef
    set nx := (cardNumXCalc g px).toNat with hnxdef
    set ny := (cardNumYCalc g py).toNat with hnydef
    have hvl := vlines_trim g.page_height iw tx htx.ne' nx 0 cm
    have hhl := hlines_trim g.page_width ih ty hty.ne' ny 0 cmy
    rw [Nat.cast_zero, zero_mul, add_zero] at hvl hhl
    simp only [Nat.zero_add] at hvl hhl
    have hvmem : ∀ l ∈ vlines g.page_height iw tx nx cm,
        ∃ k, k < nx ∧
          (l.x0 = cm + (k : ℚ) * iw + tx ∨
           l.x0 = cm + ((k : ℚ) + 1) * iw - tx) := by
      intro l hl
      rw [hvl] at hl
      simp only [List.mem_join, List.mem_map, List.mem_range] at hl
      obtain ⟨ls, ⟨k, hk, hls⟩, hmem⟩ := hl
      subst hls
      simp only [List.mem_cons, List.not_mem_nil, or_false] at hmem
      refine ⟨k, hk, ?_⟩
      rcases hmem with rfl | rfl
      · exact Or.inl rfl
      · exact Or.inr rfl
    have hhmem : ∀ l ∈ hlines g.page_width ih ty ny cmy,
        ∃ k, k < ny ∧
          (l.y0 = cmy + (k : ℚ) * ih + ty ∨
           l.y0 = cmy + ((k : ℚ) + 1) * ih - ty) := by
      intro l hl
      rw [hhl] at hl
      simp only [List.mem_join, List.mem_map, List.mem_range] at hl
      obtain ⟨ls, ⟨k, hk, hls⟩, hmem⟩ := hl
      subst hls
      simp only [List.mem_cons, List.not_mem_nil, or_false] at hmem
      refine ⟨k, hk, ?_⟩
      rcases hmem with rfl | rfl
      · exact Or.inl rfl
      · exact Or.inr rfl
    have hnocross_v : ∀ l ∈ hlines g.page_width ih ty ny cmy,
        isVerticalLine l = false := by
      intro l hl
      obtain ⟨hx0, hx1, _⟩ := hlines_shape g.page_width ih ty ny cmy l hl
      simp [isVerticalLine, hx0, hx1, hw.ne]
    have hnocross_h : ∀ l ∈ vlines g.page_height iw tx nx cm,
        isHorizontalLine l = false := by
      intro l hl
      obtain ⟨hy0, hy1, _⟩ := vlines_shape g.page_height iw tx nx cm l hl
      simp [isHorizontalLine, hy0, hy1, hh.ne]
    have hall_v : ∀ l ∈ vlines g.page_height iw tx nx cm,
        isVerticalLine l = true := by
      intro l hl
      obtain ⟨_, _, hx⟩ := vlines_shape g.page_height iw tx nx cm l hl
      simp [isVerticalLine, hx]
    have hall_h : ∀ l ∈ hlines g.page_width ih ty ny cmy,
        isHorizontalLine l = true := by
      intro l hl
      obtain ⟨_, _, hy⟩ := hlines_shape g.page_width ih ty ny cmy l hl
      simp [isHorizontalLine, hy]
    refine ⟨?_, ?_, ?_, ?_⟩
    · rw [List.filter_append,
        List.filter_eq_self.mpr hall_v,
        List.filter_eq_nil.mpr (by
          intro l hl
          simp [hnocross_v l hl]),
        List.append_nil]
      exact hvl
    · intro l hl hvert
      rw [List.mem_append] at hl
      rcases hl with hl | hl
      swap
      · exact absurd hvert (by simp [hnocross_v l hl])
      obtain ⟨k, hk, hx⟩ := hvmem l hl
      have hkc : ((k : ℚ) + 1) ≤ ((cardNumXCalc g px : ℤ) : ℚ) := by
        have : (k : ℤ) + 1 ≤ cardNumXCalc g px := by omega
        exact_mod_cast this
      constructor
      · rcases hx with hx | hx <;> rw [hx] <;> intro heq
        · have hk0 : (0 : ℚ) ≤ (k : ℚ) * iw :=
            mul_nonneg (Nat.cast_nonneg k) hiw.le
          linarith
        · have hk0 : (0 : ℚ) ≤ (k : ℚ) * iw :=
            mul_nonneg (Nat.cast_nonneg k) hiw.le
          have hexp : ((k : ℚ) + 1) * iw = (k : ℚ) * iw + iw := by ring
          linarith
      · rcases hx with hx | hx <;> rw [hx] <;> intro heq
        · have h1 : iw ≤ (((cardNumXCalc g px : ℤ) : ℚ) - (k : ℚ)) * iw := by
            nlinarith
          have h2 : (((cardNumXCalc g px : ℤ) : ℚ) - (k : ℚ)) * iw =
              ((cardNumXCalc g px : ℤ) : ℚ) * iw - (k : ℚ) * iw := by ring
          linarith
        · have h1 : ((k : ℚ) + 1) * iw ≤
              ((cardNumXCalc g px : ℤ) : ℚ) * iw :=
            mul_le_mul_of_nonneg_right hkc hiw.le
          linarith
    · rw [List.filter_append,
        List.filter_eq_nil.mpr (by
          intro l hl
          simp [hnocross_h l hl]),
        List.filter_eq_self.mpr hall_h,
        List.nil_append]
      exact hhl
    · intro l hl hhoriz
      rw [List.mem_append] at hl
      rcases hl with hl | hl
      · exact absurd hhoriz (by simp [hnocross_h l hl])
      obtain ⟨k, hk, hy⟩ := hhmem l hl
      have hkc : ((k : ℚ) + 1) ≤ ((cardNumYCalc g py : ℤ) : ℚ) := by
        have : (k : ℤ) + 1 ≤ cardNumYCalc g py := by omega
        exact_mod_cast this
      constructor
      · rcases hy with hy | hy <;> rw [hy] <;> intro heq
        · have hk0 : (0 : ℚ) ≤ (k : ℚ) * ih :=
            mul_nonneg (Nat.cast_nonneg k) hih.le
          linarith
        · have hk0 : (0 : ℚ) ≤ (k : ℚ) * ih :=
            mul_nonneg (Nat.cast_nonneg k) hih.le
          have hexp : ((k : ℚ) + 1) * ih = (k : ℚ) * ih + ih := by ring
          linarith
      · rcases hy with hy | hy <;> rw [hy] <;> intro heq
        · have h1 : ih ≤ (((cardNumYCalc g py : ℤ) : ℚ) - (k : ℚ)) * ih := by
            nlinarith
          have h2 : (((cardNumYCalc g py : ℤ) : ℚ) - (k : ℚ)) * ih =
              ((cardNumYCalc g py : ℤ) : ℚ) * ih - (k : ℚ) * ih := by ring
          linarith
        · have h1 : ((k : ℚ) + 1) * ih ≤
              ((cardNumYCalc g py : ℤ) : ℚ) * ih :=
            mul_le_mul_of_nonneg_right hkc hih.le
          linarith

/-- C5, witness: the amended claim evaluated on the spec's scenario
page `gS` with trim offset (10, 10). -/
theorem claim_C5_witness :
    (mS10.cutline_set.filter isVerticalLine =
      ((List.range mS10.card_num_x.toNat).map (fun k : ℕ =>
        [CutLine.mk (mS10.cut_margin_x + (k : ℚ) * (600 / gS.image_dpi) + 10)
          0 (mS10.cut_margin_x + (k : ℚ) * (600 / gS.image_dpi) + 10)
          gS.page_height,
         CutLine.mk
          (mS10.cut_margin_x + ((k : ℚ) + 1) * (600 / gS.image_dpi) - 10) 0
          (mS10.cut_margin_x + ((k : ℚ) + 1) * (600 / gS.image_dpi) - 10)
          gS.page_height])).join) ∧
    (∀ l ∈ mS10.cutline_set, isVerticalLine l = true →
      l.x0 ≠ mS10.cut_margin_x ∧
      l.x0 ≠ mS10.cut_margin_x +
        (mS10.card_num_x : ℚ) * (600 / gS.image_dpi)) ∧
    (mS10.cutline_set.filter isHorizontalLine =
      ((List.range mS10.card_num_y.toNat).map (fun k : ℕ =>
        [CutLine.mk 0 (mS10.cut_margin_y + (k : ℚ) * (900 / gS.image_dpi) + 10)
          gS.page_width
          (mS10.cut_margin_y + (k : ℚ) * (900 / gS.image_dpi) + 10),
         CutLine.mk 0
          (mS10.cut_margin_y + ((k : ℚ) + 1) * (900 / gS.image_dpi) - 10)
          gS.page_width
          (mS10.cut_margin_y + ((k : ℚ) + 1) * (900 / gS.image_dpi) - 10)])).join) ∧
    (∀ l ∈ mS10.cutline_set, isHorizontalLine l = true →
      l.y0 ≠ mS10.cut_margin_y ∧
      l.y0 ≠ mS10.cut_margin_y +
        (mS10.card_num_y : ℚ) * (900 / gS.image_dpi)) :=
  claim_C5 gS 600 900 10 10 mS10
    (by norm_num [generateCutLineMeta, cardNumXCalc, cardNumYCalc,
      cutMarginXCalc, cutMarginYCalc, divmodQ, pyRound, gS, mS10,
      vlines, hlines])
    (by norm_num) (by norm_num)
    (by norm_num [gS]) (by norm_num [gS])
    (by norm_num [gS]) (by norm_num [gS])

/-- `advance` when the column wraps and the grid is full: flush. -/
theorem advance_wrap_flush (cx cy : ℤ) (x y : ℕ)
    (h1 : (x + 1 : ℤ) ≥ cx) (h2 : ((y + 1 : ℕ) : ℤ) ≥ cy) :
    advance cx cy x y = (0, 0, true) := by
  have h2' : ((y : ℤ) + 1) ≥ cy := by exact_mod_cast h2
  simp [advance, h1, h2, h2']

/-- `advance` when the column wraps into a further row: next row. -/
theorem advance_wrap (cx cy : ℤ) (x y : ℕ)
    (h1 : (x + 1 : ℤ) ≥ cx) (h2 : ¬((y + 1 : ℕ) : ℤ) ≥ cy) :
    advance cx cy x y = (0, y + 1, false) := by
  have h2' : ¬((y : ℤ) + 1) ≥ cy := by exact_mod_cast h2
  simp [advance, h1, h2, h2']

/-- `advance` within a row: increment the column. -/
theorem advance_inc (cx cy : ℤ) (x y : ℕ)
    (h1 : ¬(x + 1 : ℤ) ≥ cx) (h2 : ¬((y : ℕ) : ℤ) ≥ cy) :
    advance cx cy x y = (x + 1, y, false) := by
  simp [advance, h1, h2]

/-- Under the cursor invariant `x < cardsPerRow ∧ y < cardsPerCol`,
the two-counter loop of `generate` equals the single-counter loop at
`m = x + cardsPerRow * y`. -/
theorem genLoop_eq_genLoopM (ctx : RunContext)
    (hcx : 1 ≤ ctx.card_num_x) (hcy : 1 ≤ ctx.card_num_y) :
    ∀ (imgs : List ℕ) (x y : ℕ), x < cxN ctx → y < cyN ctx →
      genLoop ctx imgs x y = genLoopM ctx imgs (x + cxN ctx * y) := by
  have hcx1 : 1 ≤ cxN ctx := by unfold cxN; omega
  have hcy1 : 1 ≤ cyN ctx := by unfold cyN; omega
  intro imgs
  induction imgs with
  | nil =>
    intro x y hx hy
    rw [genLoop, genLoopM]
    have hfresh : (x ≠ 0 ∨ y ≠ 0) ↔ (x + cxN ctx * y ≠ 0) := by
      rcases Nat.eq_zero_or_pos y with rfl | hypos
      · simp
      · have : cxN ctx * y ≠ 0 := Nat.mul_ne_zero (by omega) (by omega)
        constructor
        · intro; omega
        · intro; omega
    simp only [hfresh]
  | cons img rest ih =>
    intro x y hx hy
    rw [genLoop, genLoopM]
    have hfresh : (x = 0 ∧ y = 0) ↔ (x + cxN ctx * y = 0) := by
      constructor
      · rintro ⟨rfl, rfl⟩; simp
      · intro h0
        have hx0 : x = 0 := by omega
        have : cxN ctx * y = 0 := by omega
        have hy0 : y = 0 := by
          rcases Nat.mul_eq_zero.mp this with h | h
          · omega
          · exact h
        exact ⟨hx0, hy0⟩
    have hm_mod : (x + cxN ctx * y) % cxN ctx = x := by
      rw [Nat.add_mul_mod_self_left, Nat.mod_eq_of_lt hx]
    have hm_div : (x + cxN ctx * y) / cxN ctx = y := by
      rw [Nat.add_mul_div_left _ _ (by omega : 0 < cxN ctx),
        Nat.div_eq_of_lt hx, Nat.zero_add]
    rw [hm_mod, hm_div]
    simp only [hfresh]
    congr 1
    congr 1
    by_cases hwrap : (x + 1 : ℤ) ≥ ctx.card_num_x
    · have hx1 : x + 1 = cxN ctx := by unfold cxN at *; omega
      by_cases hflush : ((y + 1 : ℕ) : ℤ) ≥ ctx.card_num_y
      · have hy1 : y + 1 = cyN ctx := by unfold cyN at *; omega
        rw [advance_wrap_flush _ _ _ _ hwrap hflush]
        dsimp only
        have hmfull : x + cxN ctx * y + 1 = cxN ctx * cyN ctx := by
          rw [← hx1, ← hy1]; ring
        have h00 := ih 0 0 (by omega) (by omega)
        simp only [Nat.mul_zero, Nat.add_zero] at h00
        rw [if_pos hmfull, h00]
      · have hy1 : y + 1 < cyN ctx := by unfold cyN at *; omega
        rw [advance_wrap _ _ _ _ hwrap hflush]
        dsimp only
        have hmval : x + cxN ctx * y + 1 = 0 + cxN ctx * (y + 1) := by
          rw [← hx1]; ring
        have hmne : x + cxN ctx * y + 1 ≠ cxN ctx * cyN ctx := by
          rw [hmval, Nat.zero_add]
          exact Nat.ne_of_lt
            (Nat.mul_lt_mul_of_pos_left hy1 (by omega : 0 < cxN ctx))
        rw [if_neg hmne]
        have hrec := ih 0 (y + 1) (by omega) hy1
        rw [hrec, ← hmval]
    · have hx1 : x + 1 < cxN ctx := by unfold cxN at *; omega
      have hyck : ¬((y : ℕ) : ℤ) ≥ ctx.card_num_y := by
        unfold cyN at hy; omega
      rw [advance_inc _ _ _ _ hwrap hyck]
      dsimp only
      have hmval : x + cxN ctx * y + 1 = (x + 1) + cxN ctx * y := by ring
      have hmne : x + cxN ctx * y + 1 ≠ cxN ctx * cyN ctx := by
        have h2 : cxN ctx * (y + 1) ≤ cxN ctx * cyN ctx :=
          Nat.mul_le_mul_left _ (by omega)
        have hlt : x + cxN ctx * y + 1 < cxN ctx * cyN ctx := by
          calc x + cxN ctx * y + 1 < cxN ctx + cxN ctx * y := by omega
            _ = cxN ctx * (y + 1) := by ring
            _ ≤ cxN ctx * cyN ctx := h2
        omega
      rw [if_neg hmne]
      have hrec := ih (x + 1) y hx1 hy
      rw [hrec, ← hmval]

/-- Running the single-counter loop through the rest of the current
page: the images `as` exactly fill the page, which is then flushed,
and the loop continues on `bs` from a fresh page. -/
theorem genLoopM_page (ctx : RunContext) (bs : List ℕ) :
    ∀ (as : List ℕ) (m : ℕ), as ≠ [] →
      m + as.length = cxN ctx * cyN ctx →
      genLoopM ctx (as ++ bs) m =
        (if m = 0 then startEvts ctx else []) ++ drawSeq ctx as m ++
          flushEvts ctx ++ genLoopM ctx bs 0 := by
  intro as
  induction as with
  | nil => intro m hne _; exact absurd rfl hne
  | cons a as ih =>
    intro m hne hlen
    rw [List.cons_append, genLoopM]
    by_cases has : as = []
    · subst has
      have hm1 : m + 1 = cxN ctx * cyN ctx := by
        simpa using hlen
      rw [if_pos hm1]
      simp [drawSeq, List.append_assoc]
    · have hlt : m + 1 ≠ cxN ctx * cyN ctx := by
        have hpos : 0 < as.length := List.length_pos.mpr has
        simp only [List.length_cons] at hlen
        omega
      rw [if_neg hlt]
      rw [ih (m + 1) has (by simp only [List.length_cons] at hlen; omega)]
      rw [if_neg (by omega : ¬m + 1 = 0)]
      simp [drawSeq, List.append_assoc]

/-- Running the single-counter loop on images that do not fill the
page: they are drawn and the partial page is flushed at the end. -/
theorem genLoopM_partial (ctx : RunContext) :
    ∀ (as : List ℕ) (m : ℕ), 0 < m + as.length →
      m + as.length < cxN ctx * cyN ctx →
      genLoopM ctx as m =
        (if m = 0 then startEvts ctx else []) ++ drawSeq ctx as m ++
          flushEvts ctx := by
  intro as
  induction as with
  | nil =>
    intro m h0 hlt
    simp only [List.length_nil, Nat.add_zero] at h0 hlt
    rw [genLoopM]
    rw [if_pos (by omega : m ≠ 0), if_neg (by omega : ¬m = 0)]
    simp [drawSeq]
  | cons a as ih =>
    intro m h0 hlt
    rw [genLoopM]
    have hm1 : m + 1 ≠ cxN ctx * cyN ctx := by
      simp only [List.length_cons] at hlt
      omega
    rw [if_neg hm1]
    rw [ih (m + 1) (by omega)
      (by simp only [List.length_cons] at hlt; omega)]
    rw [if_neg (by omega : ¬m + 1 = 0)]
    simp [drawSeq, List.append_assoc]

/-- `chunksOf` on the empty list. -/
theorem chunksOf_nil {α : Type} (k : ℕ) : chunksOf k ([] : List α) = [] := by
  rw [chunksOf]

/-- `chunksOf` unfolding on a cons cell. -/
theorem chunksOf_cons {α : Type} (k : ℕ) (a : α) (l : List α) :
    chunksOf k (a :: l) =
      (a :: l.take (k - 1)) :: chunksOf k (l.drop (k - 1)) := by
  rw [chunksOf]

/-- `chunksOf` splits off the first `k` elements. -/
theorem chunksOf_eq_take_drop {α : Type} (k : ℕ) (hk : 0 < k) (a : α)
    (l : List α) :
    chunksOf k (a :: l) =
      List.take k (a :: l) :: chunksOf k (List.drop k (a :: l)) := by
  rw [chunksOf_cons]
  obtain ⟨j, rfl⟩ : ∃ j, k = j + 1 := ⟨k - 1, by omega⟩
  simp [List.take_succ_cons, List.drop_succ_cons]

/-- The number of chunks is the length divided by `k`, rounded up. -/
theorem chunksOf_length {α : Type} (k : ℕ) (hk : 0 < k) :
    ∀ (N : ℕ) (l : List α), l.length = N →
      (chunksOf k l).length = (N + k - 1) / k := by
  intro N
  induction N using Nat.strong_induction_on with
  | _ N ihN =>
    intro l hlen
    cases l with
    | nil =>
      rw [chunksOf_nil]
      simp only [List.length_nil] at hlen ⊢
      rw [← hlen]
      rw [Nat.zero_add, Nat.div_eq_of_lt (by omega)]
    | cons a l2 =>
      rw [chunksOf_eq_take_drop k hk]
      simp only [List.length_cons] at hlen
      by_cases hbig : l2.length + 1 ≤ k
      · have hdrop : List.drop k (a :: l2) = [] :=
          List.drop_eq_nil_of_le (by simp only [List.length_cons]; omega)
        rw [hdrop, chunksOf_nil]
        simp only [List.length_cons, List.length_nil]
        have hone : (N + k - 1) / k = 1 := by
          have hlow : k ≤ N + k - 1 := by omega
          have hhigh : N + k - 1 - k < k := by omega
          rw [Nat.div_eq_sub_div hk hlow, Nat.div_eq_of_lt hhigh]
        omega
      · have hdroplen : (List.drop k (a :: l2)).length = N - k := by
          simp only [List.length_drop, List.length_cons]
          omega
        have hrec := ihN (N - k) (by omega) (List.drop k (a :: l2)) hdroplen
        rw [List.length_cons, hrec]
        have h1 : N - k + k - 1 = N - 1 := by omega
        have h2 : N + k - 1 = (N - 1) + k := by omega
        rw [h1, h2, Nat.add_div_right _ hk]

/-- The chunk sizes: full chunks of `k` followed by the remainder. -/
theorem chunksOf_map_length {α : Type} (k : ℕ) (hk : 0 < k) :
    ∀ (N : ℕ) (l : List α), l.length = N →
      (chunksOf k l).map List.length =
        List.replicate (N / k) k ++
          (if N % k = 0 then [] else [N % k]) := by
  intro N
  induction N using Nat.strong_induction_on with
  | _ N ihN =>
    intro l hlen
    cases l with
    | nil =>
      rw [chunksOf_nil]
      simp only [List.length_nil] at hlen
      subst hlen
      simp
    | cons a l2 =>
      rw [chunksOf_eq_take_drop k hk]
      simp only [List.length_cons] at hlen
      by_cases hbig : l2.length + 1 ≤ k
      · have hdrop : List.drop k (a :: l2) = [] :=
          List.drop_eq_nil_of_le (by simp only [List.length_cons]; omega)
        have htake : List.take k (a :: l2) = a :: l2 :=
          List.take_of_length_le (by simp only [List.length_cons]; omega)
        rw [hdrop, htake, chunksOf_nil]
        simp only [List.map_cons, List.map_nil, List.length_cons, hlen]
        by_cases heq : N = k
        · subst heq
          rw [Nat.div_self hk, Nat.mod_self]
          simp
        · have hNk : N < k := by omega
          rw [Nat.div_eq_of_lt hNk, Nat.mod_eq_of_lt hNk]
          rw [if_neg (by omega : ¬N = 0)]
          simp
      · have hkN : k ≤ N := by omega
        have hdroplen : (List.drop k (a :: l2)).length = N - k := by
          simp only [List.length_drop, List.length_cons]
          omega
        have htakelen : (List.take k (a :: l2)).length = k := by
          simp only [List.length_take, List.length_cons]
          omega
        have hrec := ihN (N - k) (by omega) (List.drop k (a :: l2)) hdroplen
        rw [List.map_cons, hrec, htakelen]
        rw [Nat.div_eq_sub_div hk hkN, Nat.mod_eq_sub_mod hkN,
          List.replicate_succ]
        simp [List.cons_append]

/-- Every chunk produced by `chunksOf` is nonempty. -/
theorem chunksOf_ne_nil {α : Type} (k : ℕ) :
    ∀ (N : ℕ) (l : List α), l.length = N →
      ∀ c ∈ chunksOf k l, c ≠ [] := by
  intro N
  induction N using Nat.strong_induction_on with
  | _ N ihN =>
    intro l hlen c hc
    cases l with
    | nil => rw [chunksOf_nil] at hc; exact absurd hc (List.not_mem_nil c)
    | cons a l2 =>
      rw [chunksOf_cons] at hc
      rcases List.mem_cons.mp hc with rfl | hmem
      · exact List.cons_ne_nil a _
      · simp only [List.length_cons] at hlen
        have hdl : (List.drop (k - 1) l2).length = l2.length - (k - 1) :=
          List.length_drop _ _
        exact ihN (l2.length - (k - 1)) (by omega) _ hdl c hmem

/-- Closed form of the single-counter loop from a fresh page: the
trace is one `pageBlock` per `cardsPerRow * cardsPerCol`-sized chunk
of the catalog. -/
theorem genLoopM_closed (ctx : RunContext)
    (hk : 0 < cxN ctx * cyN ctx) :
    ∀ (N : ℕ) (images : List ℕ), images.length = N →
      genLoopM ctx images 0 =
        ((chunksOf (cxN ctx * cyN ctx) images).map (pageBlock ctx)).join := by
  intro N
  induction N using Nat.strong_induction_on with
  | _ N ihN =>
    intro images hlen
    cases images with
    | nil => simp [genLoopM, chunksOf_nil]
    | cons a l2 =>
      simp only [List.length_cons] at hlen
      by_cases hsmall : l2.length + 1 < cxN ctx * cyN ctx
      · have hpart := genLoopM_partial ctx (a :: l2) 0 (by simp)
          (by simp only [List.length_cons, Nat.zero_add]; omega)
        rw [hpart, if_pos rfl]
        have htake : List.take (cxN ctx * cyN ctx) (a :: l2) = a :: l2 :=
          List.take_of_length_le (by simp only [List.length_cons]; omega)
        have hdrop : List.drop (cxN ctx * cyN ctx) (a :: l2) = [] :=
          List.drop_eq_nil_of_le (by simp only [List.length_cons]; omega)
        rw [chunksOf_eq_take_drop _ hk, htake, hdrop, chunksOf_nil]
        simp [pageBlock, List.append_assoc]
      · have hkN : cxN ctx * cyN ctx ≤ l2.length + 1 := by omega
        have htakelen :
            (List.take (cxN ctx * cyN ctx) (a :: l2)).length =
              cxN ctx * cyN ctx := by
          simp only [List.length_take, List.length_cons]
          omega
        have htakene : List.take (cxN ctx * cyN ctx) (a :: l2) ≠ [] := by
          intro hnil
          rw [hnil] at htakelen
          simp only [List.length_nil] at htakelen
          omega
        have hpage := genLoopM_page ctx
          (List.drop (cxN ctx * cyN ctx) (a :: l2))
          (List.take (cxN ctx * cyN ctx) (a :: l2)) 0 htakene
          (by rw [htakelen]; omega)
        conv_lhs => rw [← List.take_append_drop (cxN ctx * cyN ctx) (a :: l2)]
        rw [hpage, if_pos rfl]
        have hdroplen :
            (List.drop (cxN ctx * cyN ctx) (a :: l2)).length =
              l2.length + 1 - cxN ctx * cyN ctx := by
          simp only [List.length_drop, List.length_cons]
        have hrec := ihN (l2.length + 1 - cxN ctx * cyN ctx) (by omega)
          (List.drop (cxN ctx * cyN ctx) (a :: l2)) hdroplen
        rw [hrec]
        rw [chunksOf_eq_take_drop _ hk]
        simp [pageBlock, List.append_assoc]

/-- Closed form of `generate`'s image loop from the origin cursor. -/
theorem genLoop_closed (ctx : RunContext)
    (hcx : 1 ≤ ctx.card_num_x) (hcy : 1 ≤ ctx.card_num_y)
    (images : List ℕ) :
    genLoop ctx images 0 0 =
      ((chunksOf (cxN ctx * cyN ctx) images).map (pageBlock ctx)).join := by
  have hcx1 : 1 ≤ cxN ctx := by unfold cxN; omega
  have hcy1 : 1 ≤ cyN ctx := by unfold cyN; omega
  have h := genLoop_eq_genLoopM ctx hcx hcy images 0 0 (by omega) (by omega)
  simp only [Nat.mul_zero, Nat.add_zero] at h
  rw [h]
  exact genLoopM_closed ctx (by positivity) images.length images rfl

/-- `drawSeq` contains no event besides image draws. -/
theorem drawSeq_countP (ctx : RunContext) (p : Event → Bool)
    (hp : ∀ i a b, p (Event.drawImage i a b) = false) :
    ∀ (as : List ℕ) (m : ℕ), (drawSeq ctx as m).countP p = 0 := by
  intro as
  induction as with
  | nil => intro m; simp [drawSeq]
  | cons a as ih => intro m; simp [drawSeq, List.countP_cons, hp, ih]

/-- A page block contains exactly one `_initialize_page()` call. -/
theorem pageBlock_countP_start (ctx : RunContext) (as : List ℕ) :
    (pageBlock ctx as).countP isStartPage = 1 := by
  by_cases hb : ctx.layer = "bottom" <;> by_cases ht : ctx.layer = "top" <;>
    simp [pageBlock, startEvts, flushEvts, hb, ht, List.countP_append,
      List.countP_cons, drawSeq_countP ctx isStartPage (fun _ _ _ => rfl),
      isStartPage]

/-- A page block contains exactly one `_render_page()` call. -/
theorem pageBlock_countP_finish (ctx : RunContext) (as : List ℕ) :
    (pageBlock ctx as).countP isFinishPage = 1 := by
  by_cases hb : ctx.layer = "bottom" <;> by_cases ht : ctx.layer = "top" <;>
    simp [pageBlock, startEvts, flushEvts, hb, ht, List.countP_append,
      List.countP_cons, drawSeq_countP ctx isFinishPage (fun _ _ _ => rfl),
      isFinishPage]

/-- With the cutline layer `top` or `bottom`, a page block contains
exactly one `_draw_cutlines(...)` call. -/
theorem pageBlock_countP_cutlines (ctx : RunContext)
    (h : ctx.layer = "top" ∨ ctx.layer = "bottom") (as : List ℕ) :
    (pageBlock ctx as).countP isDrawCutlines = 1 := by
  rcases h with h | h <;>
    simp [pageBlock, startEvts, flushEvts, h, List.countP_append,
      List.countP_cons, drawSeq_countP ctx isDrawCutlines (fun _ _ _ => rfl),
      isDrawCutlines]

/-- With any other cutline layer, a page block contains no
`_draw_cutlines(...)` call. -/
theorem pageBlock_countP_cutlines_none (ctx : RunContext)
    (h1 : ¬ctx.layer = "top") (h2 : ¬ctx.layer = "bottom") (as : List ℕ) :
    (pageBlock ctx as).countP isDrawCutlines = 0 := by
  simp [pageBlock, startEvts, flushEvts, h1, h2, List.countP_append,
    List.countP_cons, drawSeq_countP ctx isDrawCutlines (fun _ _ _ => rfl),
    isDrawCutlines]

/-- Counting over the joined page blocks yields one per chunk. -/
theorem join_pageBlock_countP (ctx : RunContext) (p : Event → Bool)
    (c : ℕ) (hc : ∀ as, (pageBlock ctx as).countP p = c) :
    ∀ chunks : List (List ℕ),
      ((chunks.map (pageBlock ctx)).join).countP p = c * chunks.length := by
  intro chunks
  induction chunks with
  | nil => simp
  | cons ch chunks ih =>
    simp only [List.map_cons, List.join_cons, List.countP_append, ih, hc,
      List.length_cons]
    ring

/-- The page-start events do not touch the per-page image counter. -/
theorem imagesPerPage_startEvts (ctx : RunContext) (t : List Event)
    (acc : ℕ) :
    imagesPerPage (startEvts ctx ++ t) acc = imagesPerPage t acc := by
  by_cases hb : ctx.layer = "bottom" <;>
    simp [startEvts, hb, imagesPerPage]

/-- The image draws of `drawSeq` add to the per-page image counter. -/
theorem imagesPerPage_drawSeq (ctx : RunContext) :
    ∀ (as : List ℕ) (m : ℕ) (t : List Event) (acc : ℕ),
      imagesPerPage (drawSeq ctx as m ++ t) acc =
        imagesPerPage t (acc + as.length) := by
  intro as
  induction as with
  | nil => intro m t acc; simp [drawSeq]
  | cons a as ih =>
    intro m t acc
    simp only [drawSeq, List.cons_append, imagesPerPage, List.append_eq,
      ih, List.length_cons]
    have h : acc + 1 + as.length = acc + (as.length + 1) := by omega
    rw [h]

/-- The flush events cut the page: the counter is recorded and
reset. -/
theorem imagesPerPage_flushEvts (ctx : RunContext) (t : List Event)
    (acc : ℕ) :
    imagesPerPage (flushEvts ctx ++ t) acc = acc :: imagesPerPage t 0 := by
  by_cases ht : ctx.layer = "top" <;>
    simp [flushEvts, ht, imagesPerPage]

/-- The images per page of the joined page blocks are the chunk
sizes. -/
theorem imagesPerPage_join_pageBlock (ctx : RunContext) :
    ∀ chunks : List (List ℕ),
      imagesPerPage ((chunks.map (pageBlock ctx)).join) 0 =
        chunks.map List.length := by
  intro chunks
  induction chunks with
  | nil => simp [imagesPerPage]
  | cons ch chunks ih =>
    simp only [List.map_cons, List.join_cons, pageBlock, List.append_assoc]
    rw [imagesPerPage_startEvts, imagesPerPage_drawSeq,
      imagesPerPage_flushEvts, ih, Nat.zero_add]

/-- On successful grid computation, `generate` raises nothing and
produces the trace of the image loop from the origin cursor. -/
theorem generate_ok (g : GeneratorConfig) (px py : ℚ) (images : List ℕ)
    (cfg : CutlineConfig) (rtl : Bool) (m : PageMeta)
    (h : generateCutLineMeta g px py cfg.trim_offset_x cfg.trim_offset_y =
      Except.ok m) :
    generate g px py images cfg rtl =
      (genLoop (mkCtx g px py m cfg rtl) images 0 0, none) := by
  simp only [generate, h]

/-- C6 (confirmed): with grid capacity `c × r` (both at least 1), the
composer starts and finishes exactly `⌈N / (c*r)⌉` pages; every page
but possibly the last holds exactly `c*r` images, the last holds
`N mod (c*r)` (or `c*r` when divisible); an empty catalog produces
zero pages and is not an error. -/
theorem claim_C6 (g : GeneratorConfig) (px py : ℚ) (images : List ℕ)
    (cfg : CutlineConfig) (rtl : Bool) (m : PageMeta) (c r : ℕ)
    (h : generateCutLineMeta g px py cfg.trim_offset_x cfg.trim_offset_y =
      Except.ok m)
    (hcx : m.card_num_x = (c : ℤ)) (hcy : m.card_num_y = (r : ℤ))
    (hc : 1 ≤ c) (hr : 1 ≤ r) :
    (generate g px py images cfg rtl).2 = none ∧
    ((generate g px py images cfg rtl).1).countP isStartPage =
      (images.length + c * r - 1) / (c * r) ∧
    ((generate g px py images cfg rtl).1).countP isFinishPage =
      (images.length + c * r - 1) / (c * r) ∧
    imagesPerPage ((generate g px py images cfg rtl).1) 0 =
      List.replicate (images.length / (c * r)) (c * r) ++
        (if images.length % (c * r) = 0 then []
         else [images.length % (c * r)]) ∧
    (images = [] → (generate g px py images cfg rtl).1 = []) := by
  rw [generate_ok g px py images cfg rtl m h]
  set ctx := mkCtx g px py m cfg rtl with hctx
  have hctxx : ctx.card_num_x = (c : ℤ) := hcx
  have hctxy : ctx.card_num_y = (r : ℤ) := hcy
  have hcxN : cxN ctx = c := by
    rw [cxN, hctxx]
    omega
  have hcyN : cyN ctx = r := by
    rw [cyN, hctxy]
    omega
  have hclosed := genLoop_closed ctx (by omega) (by omega) images
  rw [hclosed, hcxN, hcyN]
  have hcr : 0 < c * r := by positivity
  refine ⟨rfl, ?_, ?_, ?_, ?_⟩
  · rw [join_pageBlock_countP ctx isStartPage 1
      (pageBlock_countP_start ctx)]
    rw [chunksOf_length (c * r) hcr images.length images rfl]
    omega
  · rw [join_pageBlock_countP ctx isFinishPage 1
      (pageBlock_countP_finish ctx)]
    rw [chunksOf_length (c * r) hcr images.length images rfl]
    omega
  · rw [imagesPerPage_join_pageBlock ctx]
    exact chunksOf_map_length (c * r) hcr images.length images rfl
  · intro hnil
    subst hnil
    rw [chunksOf_nil]
    rfl

/-- C6, witness: the spec's scenario — 10 images on the 3 × 3 grid of
`gS` — yields two pages of 9 and 1 images, with two page starts and
two page finishes. -/
theorem claim_C6_witness :
    (generate gS 600 900 (List.range 10) ⟨0, 0, "top"⟩ false).2 = none ∧
    ((generate gS 600 900 (List.range 10) ⟨0, 0, "top"⟩
        false).1).countP isStartPage =
      ((List.range 10).length + 3 * 3 - 1) / (3 * 3) ∧
    ((generate gS 600 900 (List.range 10) ⟨0, 0, "top"⟩
        false).1).countP isFinishPage =
      ((List.range 10).length + 3 * 3 - 1) / (3 * 3) ∧
    imagesPerPage ((generate gS 600 900 (List.range 10) ⟨0, 0, "top"⟩
        false).1) 0 =
      List.replicate ((List.range 10).length / (3 * 3)) (3 * 3) ++
        (if (List.range 10).length % (3 * 3) = 0 then []
         else [(List.range 10).length % (3 * 3)]) ∧
    (List.range 10 = [] →
      (generate gS 600 900 (List.range 10) ⟨0, 0, "top"⟩ false).1 = []) :=
  claim_C6 gS 600 900 (List.range 10) ⟨0, 0, "top"⟩ false mS 3 3
    (by norm_num [generateCutLineMeta, cardNumXCalc, cardNumYCalc,
      cutMarginXCalc, cutMarginYCalc, divmodQ, pyRound, gS, mS,
      vlines, hlines])
    (by norm_num [mS]) (by norm_num [mS]) (by norm_num) (by norm_num)

/-- The page-start events contain no image draw. -/
theorem startEvts_no_drawImage (ctx : RunContext) :
    ∀ e ∈ startEvts ctx, isDrawImage e = false := by
  intro e he
  by_cases hb : ctx.layer = "bottom" <;> simp [startEvts, hb] at he
  · rcases he with rfl | rfl <;> rfl
  · subst he; rfl

/-- C7 (confirmed): an image placed with the cursor at
`(columnIndex, rowIndex) = (x, y)` is drawn — before any other image
of that iteration — at `xPos = pageWidth - cutMarginX -
(x+1)*imageWidth` in right-to-left mode and `xPos = cutMarginX +
x*imageWidth` otherwise, with `yPos = cutMarginY + y*imageHeight` in
both modes. -/
theorem claim_C7 (ctx : RunContext) (img : ℕ) (rest : List ℕ) (x y : ℕ) :
    ∃ pre post, genLoop ctx (img :: rest) x y =
      pre ++ Event.drawImage img
        (if ctx.rtl then
          ctx.page_width - ctx.cut_margin_x - ((x : ℚ) + 1) * ctx.image_width
        else ctx.cut_margin_x + (x : ℚ) * ctx.image_width)
        (ctx.cut_margin_y + (y : ℚ) * ctx.image_height) :: post ∧
      ∀ e ∈ pre, isDrawImage e = false := by
  refine ⟨if x = 0 ∧ y = 0 then startEvts ctx else [],
    (match advance ctx.card_num_x ctx.card_num_y x y with
      | (x1, y1, true) => flushEvts ctx ++ genLoop ctx rest x1 y1
      | (x1, y1, false) => genLoop ctx rest x1 y1), ?_, ?_⟩
  · rw [genLoop]
    simp only [xPos, yPos]
  · intro e he
    by_cases h0 : x = 0 ∧ y = 0
    · rw [if_pos h0] at he
      exact startEvts_no_drawImage ctx e he
    · rw [if_neg h0] at he
      exact absurd he (List.not_mem_nil e)

/-- C8 (confirmed): with the cutline layer `top` or `bottom` and a
valid grid, the trace is a concatenation of page blocks, one per
(nonempty) chunk of the catalog: each block is `startPage`, cutlines
iff the layer is `bottom`, the images, cutlines iff the layer is
`top`, then `finishPage` — so cutlines are drawn exactly once per
page, immediately after `startPage` when on the bottom and between
the last image and `finishPage` when on top (the final partial page
included), and page starts and finishes balance. -/
theorem claim_C8 (g : GeneratorConfig) (px py : ℚ) (images : List ℕ)
    (cfg : CutlineConfig) (rtl : Bool) (m : PageMeta)
    (h : generateCutLineMeta g px py cfg.trim_offset_x cfg.trim_offset_y =
      Except.ok m)
    (hcx : 1 ≤ m.card_num_x) (hcy : 1 ≤ m.card_num_y)
    (hlayer : cfg.layer = "top" ∨ cfg.layer = "bottom") :
    (generate g px py images cfg rtl).1 =
      ((chunksOf (cxN (mkCtx g px py m cfg rtl) *
          cyN (mkCtx g px py m cfg rtl)) images).map
        (pageBlock (mkCtx g px py m cfg rtl))).join ∧
    (∀ ch ∈ chunksOf (cxN (mkCtx g px py m cfg rtl) *
        cyN (mkCtx g px py m cfg rtl)) images, ch ≠ []) ∧
    (∀ ch ∈ chunksOf (cxN (mkCtx g px py m cfg rtl) *
        cyN (mkCtx g px py m cfg rtl)) images,
      (pageBlock (mkCtx g px py m cfg rtl) ch).countP isDrawCutlines = 1) ∧
    ((generate g px py images cfg rtl).1).countP isStartPage =
      ((generate g px py images cfg rtl).1).countP isFinishPage := by
  rw [generate_ok g px py images cfg rtl m h]
  set ctx := mkCtx g px py m cfg rtl with hctx
  have hctxx : 1 ≤ ctx.card_num_x := hcx
  have hctxy : 1 ≤ ctx.card_num_y := hcy
  have hlayer' : ctx.layer = "top" ∨ ctx.layer = "bottom" := hlayer
  have hclosed := genLoop_closed ctx hctxx hctxy images
  refine ⟨hclosed, ?_, ?_, ?_⟩
  · exact chunksOf_ne_nil _ images.length images rfl
  · intro ch _
    exact pageBlock_countP_cutlines ctx hlayer' ch
  · rw [hclosed,
      join_pageBlock_countP ctx isStartPage 1 (pageBlock_countP_start ctx),
      join_pageBlock_countP ctx isFinishPage 1
        (pageBlock_countP_finish ctx)]

/-- C8, witness: the scenario run (10 images, 3 × 3 grid, layer
`top`) instantiating the page-block decomposition. -/
theorem claim_C8_witness :
    (generate gS 600 900 (List.range 10) ⟨0, 0, "top"⟩ false).1 =
      ((chunksOf (cxN (mkCtx gS 600 900 mS ⟨0, 0, "top"⟩ false) *
          cyN (mkCtx gS 600 900 mS ⟨0, 0, "top"⟩ false)) (List.range 10)).map
        (pageBlock (mkCtx gS 600 900 mS ⟨0, 0, "top"⟩ false))).join ∧
    (∀ ch ∈ chunksOf (cxN (mkCtx gS 600 900 mS ⟨0, 0, "top"⟩ false) *
        cyN (mkCtx gS 600 900 mS ⟨0, 0, "top"⟩ false)) (List.range 10),
      ch ≠ []) ∧
    (∀ ch ∈ chunksOf (cxN (mkCtx gS 600 900 mS ⟨0, 0, "top"⟩ false) *
        cyN (mkCtx gS 600 900 mS ⟨0, 0, "top"⟩ false)) (List.range 10),
      (pageBlock (mkCtx gS 600 900 mS ⟨0, 0, "top"⟩ false) ch).countP
        isDrawCutlines = 1) ∧
    ((generate gS 600 900 (List.range 10) ⟨0, 0, "top"⟩
        false).1).countP isStartPage =
      ((generate gS 600 900 (List.range 10) ⟨0, 0, "top"⟩
        false).1).countP isFinishPage :=
  claim_C8 gS 600 900 (List.range 10) ⟨0, 0, "top"⟩ false mS
    (by norm_num [generateCutLineMeta, cardNumXCalc, cardNumYCalc,
      cutMarginXCalc, cutMarginYCalc, divmodQ, pyRound, gS, mS,
      vlines, hlines])
    (by norm_num [mS]) (by norm_num [mS]) (Or.inl rfl)

/-- C9 (confirmed): one step of the cursor-advance logic preserves the
invariant `columnIndex < cardsPerRow ∧ rowIndex < cardsPerCol`, and
it reports a page flush exactly when the resulting cursor is `(0,0)`
— so (starting from `(0,0)`, which `generate` does) the cursor is in
range at the start of every iteration and `(0,0)` detects a fresh
page precisely. -/
theorem claim_C9 (cx cy : ℤ) (x y : ℕ) (hcx : 1 ≤ cx) (hcy : 1 ≤ cy)
    (hx : (x : ℤ) < cx) (hy : (y : ℤ) < cy) :
    (((advance cx cy x y).1 : ℤ) < cx ∧
      (((advance cx cy x y).2.1 : ℤ) < cy)) ∧
    ((advance cx cy x y).2.2 = true ↔
      (advance cx cy x y).1 = 0 ∧ (advance cx cy x y).2.1 = 0) := by
  by_cases hwrap : (x + 1 : ℤ) ≥ cx
  · by_cases hflush : ((y + 1 : ℕ) : ℤ) ≥ cy
    · rw [advance_wrap_flush _ _ _ _ hwrap hflush]
      refine ⟨⟨by exact_mod_cast hcx, by exact_mod_cast hcy⟩, by simp⟩
    · rw [advance_wrap _ _ _ _ hwrap hflush]
      refine ⟨⟨by exact_mod_cast hcx, ?_⟩, by simp⟩
      push_neg at hflush
      exact hflush
  · have hyck : ¬((y : ℕ) : ℤ) ≥ cy := by push_neg; exact hy
    rw [advance_inc _ _ _ _ hwrap hyck]
    push_neg at hwrap
    refine ⟨⟨by exact_mod_cast hwrap, hy⟩, by simp⟩

/-- C9, witness: a mid-row step on a 3 × 3 grid: from `(1, 2)` the
cursor advances to `(2, 2)` without flushing. -/
theorem claim_C9_witness :
    (((advance 3 3 1 2).1 : ℤ) < 3 ∧ (((advance 3 3 1 2).2.1 : ℤ) < 3)) ∧
    ((advance 3 3 1 2).2.2 = true ↔
      (advance 3 3 1 2).1 = 0 ∧ (advance 3 3 1 2).2.1 = 0) :=
  claim_C9 3 3 1 2 (by norm_num) (by norm_num) (by norm_num) (by norm_num)

/-- C10 (confirmed): for a layer value other than `top` and `bottom`,
`generate` raises no error; it still starts pages, draws every image
at its normal position and finishes pages — the trace is the same
page-block decomposition with the cutline draws removed — and no
cutline is drawn on any page. -/
theorem claim_C10 (g : GeneratorConfig) (px py : ℚ) (images : List ℕ)
    (cfg : CutlineConfig) (rtl : Bool) (m : PageMeta)
    (h : generateCutLineMeta g px py cfg.trim_offset_x cfg.trim_offset_y =
      Except.ok m)
    (hcx : 1 ≤ m.card_num_x) (hcy : 1 ≤ m.card_num_y)
    (h1 : cfg.layer ≠ "top") (h2 : cfg.layer ≠ "bottom") :
    (generate g px py images cfg rtl).2 = none ∧
    ((generate g px py images cfg rtl).1).countP isDrawCutlines = 0 ∧
    (generate g px py images cfg rtl).1 =
      ((chunksOf (cxN (mkCtx g px py m cfg rtl) *
          cyN (mkCtx g px py m cfg rtl)) images).map
        (fun as => Event.startPage ::
          (drawSeq (mkCtx g px py m cfg rtl) as 0 ++
            [Event.finishPage]))).join := by
  rw [generate_ok g px py images cfg rtl m h]
  set ctx := mkCtx g px py m cfg rtl with hctx
  have hctxx : 1 ≤ ctx.card_num_x := hcx
  have hctxy : 1 ≤ ctx.card_num_y := hcy
  have h1' : ¬ctx.layer = "top" := h1
  have h2' : ¬ctx.layer = "bottom" := h2
  have hclosed := genLoop_closed ctx hctxx hctxy images
  have hblock : ∀ as, pageBlock ctx as =
      Event.startPage :: (drawSeq ctx as 0 ++ [Event.finishPage]) := by
    intro as
    simp [pageBlock, startEvts, flushEvts, h1', h2']
  refine ⟨rfl, ?_, ?_⟩
  · show (genLoop ctx images 0 0).countP isDrawCutlines = 0
    rw [hclosed,
      join_pageBlock_countP ctx isDrawCutlines 0
        (pageBlock_countP_cutlines_none ctx h1' h2')]
    omega
  · show genLoop ctx images 0 0 = _
    rw [hclosed]
    congr 1
    exact List.map_congr_left fun as _ => hblock as

/-- C10, witness: the scenario run with the unexpected layer value
`"middle"`: no error, no cutlines, pages still composed. -/
theorem claim_C10_witness :
    (generate gS 600 900 (List.range 10) ⟨0, 0, "middle"⟩ false).2 = none ∧
    ((generate gS 600 900 (List.range 10) ⟨0, 0, "middle"⟩
        false).1).countP isDrawCutlines = 0 ∧
    (generate gS 600 900 (List.range 10) ⟨0, 0, "middle"⟩ false).1 =
      ((chunksOf (cxN (mkCtx gS 600 900 mS ⟨0, 0, "middle"⟩ false) *
          cyN (mkCtx gS 600 900 mS ⟨0, 0, "middle"⟩ false))
          (List.range 10)).map
        (fun as => Event.startPage ::
          (drawSeq (mkCtx gS 600 900 mS ⟨0, 0, "middle"⟩ false) as 0 ++
            [Event.finishPage]))).join :=
  claim_C10 gS 600 900 (List.range 10) ⟨0, 0, "middle"⟩ false mS
    (by norm_num [generateCutLineMeta, cardNumXCalc, cardNumYCalc,
      cutMarginXCalc, cutMarginYCalc, divmodQ, pyRound, gS, mS,
      vlines, hlines])
    (by norm_num [mS]) (by norm_num [mS])
    (by simp) (by simp)

end PnpStitcher
